import Mathlib

/-!
Verification of the dominant-color extraction engine of ImmichFrame
(src/immichFrame.Web/src/lib/utils/colorUtils.ts).

Shallow embedding conventions:
* JavaScript numbers are modelled exactly: integer quantities as `ℕ`/`ℤ`,
  fractional arithmetic as `ℚ`, and the sRGB gamma curve (the only
  transcendental operation, `Math.pow(_, 2.4)`) over `ℝ` via `Real.rpow`.
* `Math.floor` on nonnegative rationals is `jsFloorNat`; `Math.round`
  (half toward positive infinity) is `jsRound`.
* A pixel source (image / video / canvas element) is a record of its
  metadata plus the sampleSize-scaled buffer produced by `ctx.drawImage`,
  abstracted as a coordinate function `ℕ → ℕ → RGBA` (scaling itself is a
  browser primitive outside the embedding); `ctx.getImageData` reads a
  row-major rectangle of that buffer.
* A TypeScript optional field is `Option α` (`none` = absent/undefined);
  `?? d` and destructuring defaults are `Option.getD`, `|| d` is the
  truthiness-based `jsOrStr`.
* The JavaScript `Map` keyed by the string `r,g,b` (injective in the
  three components) is an insertion-ordered association list keyed by the
  rgb triple, matching `Map` iteration order.
* The promise-based image entry point is a function of the load outcome
  (`loadOk : Bool`) returning `Except String ExtractedColor`
  (resolve = `.ok`, reject = `.error`).
-/

/-- One RGBA sample of an ImageData buffer (Uint8ClampedArray entries). -/
structure RGBA where
  r : ℕ
  g : ℕ
  b : ℕ
  a : ℕ

/-- An entry of the color frequency map built by the analyzer. -/
structure Candidate where
  count : ℕ
  rgb : ℕ × ℕ × ℕ
  luminance : ℝ
  saturation : ℝ

/-- The result value `ExtractedColor {hex, rgb, luminance}`. -/
structure ExtractedColor where
  hex : String
  rgb : ℕ × ℕ × ℕ
  luminance : ℝ

/-- `ColorExtractionOptions`: every field optional, `none` = absent. -/
structure ColorExtractionOptions where
  sampleSize : Option ℕ := none
  fallbackColor : Option String := none
  sampleLowerThird : Option Bool := none
  analyzePortraitVideo : Option Bool := none
  handleSplitView : Option Bool := none
  ignoreBlackBackground : Option Bool := none
  enableContrastBoost : Option Bool := none
  minSaturation : Option ℝ := none
  maxSaturation : Option ℝ := none
  minLuminance : Option ℝ := none
  maxLuminance : Option ℝ := none
  maxDarkness : Option ℝ := none
  useFallbackOnly : Option Bool := none

/-- The element handed to `extractDominantColor`: an image, a video or a
canvas, together with the drawn sampling buffer. -/
inductive PixelSource where
  | video (videoWidth videoHeight readyState : ℕ) (buf : ℕ → ℕ → RGBA)
  | image (naturalWidth naturalHeight : ℕ) (complete : Bool) (buf : ℕ → ℕ → RGBA)
  | canvasElem (buf : ℕ → ℕ → RGBA)

/-- The sampling region decision of `extractDominantColor`
(lines 239-259): one rectangle, or the dedicated split-view path. -/
inductive SamplingPlan where
  | single (offsetX offsetY width height : ℕ)
  | split
deriving DecidableEq

/-- JavaScript `Math.round` (halves round toward positive infinity). -/
def jsRound (q : ℚ) : ℤ := ⌊q + 1/2⌋

/-- Truthiness-based default: JavaScript `s || d` for an optional string
(`undefined` and the empty string are falsy). -/
def jsOrStr (o : Option String) (d : String) : String :=
  match o with
  | some s => if s = "" then d else s
  | none => d

/-- Truthiness of an optional string operand (`options.fallbackColor` in a
boolean context). -/
def strTruthy (o : Option String) : Bool :=
  match o with
  | some s => s ≠ ""
  | none => false

/-- Truthiness of an optional boolean operand (`options.useFallbackOnly`). -/
def boolTruthy (o : Option Bool) : Bool := o.getD false

/-- `toHex` inside `rgbToHex`: `n.toString(16)` padded to two digits
(`Nat.toDigits 16` matches the lowercase digits of `Number.toString(16)`
on the natural numbers the code passes; `Math.round` is the identity on
them). -/
def toHexPair (n : ℕ) : String :=
  let s := Nat.toDigits 16 n
  if s.length = 1 then String.mk ('0' :: s) else String.mk s

/-- `rgbToHex` (colorUtils.ts lines 677-684). -/
def rgbToHex (r g b : ℕ) : String :=
  "#" ++ toHexPair r ++ toHexPair g ++ toHexPair b

/-- Value of one hex digit, case insensitive (the `/i` regex flag). -/
def hexDigitVal (c : Char) : Option ℕ :=
  if ('0' ≤ c ∧ c ≤ '9') then some (c.toNat - '0'.toNat)
  else if ('a' ≤ c ∧ c ≤ 'f') then some (c.toNat - 'a'.toNat + 10)
  else if ('A' ≤ c ∧ c ≤ 'F') then some (c.toNat - 'A'.toNat + 10)
  else none

/-- `parseInt(dd, 16)` on a two-digit hex group. -/
def hexPairVal (c₁ c₂ : Char) : Option ℕ :=
  match hexDigitVal c₁, hexDigitVal c₂ with
  | some h, some l => some (16 * h + l)
  | _, _ => none

/-- `hexToRgb` (lines 377-384): the anchored case-insensitive regex
`#?([a-f\d]{2})([a-f\d]{2})([a-f\d]{2})` — an optional leading `#`
followed by exactly six hex digits. -/
def hexToRgb (hex : String) : Option (ℕ × ℕ × ℕ) :=
  let cs :=
    match hex.data with
    | '#' :: rest => rest
    | cs => cs
  match cs with
  | [c₁, c₂, c₃, c₄, c₅, c₆] =>
    match hexPairVal c₁ c₂, hexPairVal c₃ c₄, hexPairVal c₅ c₆ with
    | some r, some g, some b => some (r, g, b)
    | _, _, _ => none
  | _ => none

/-- The sRGB piecewise channel linearization used by `getLuminance`. -/
noncomputable def srgbChannel (c : ℝ) : ℝ :=
  if c ≤ 0.03928 then c / 12.92 else ((c + 0.055) / 1.055) ^ (2.4 : ℝ)

/-- `getLuminance` (lines 663-672), on the integer channels the code
passes. -/
noncomputable def getLuminance (r g b : ℕ) : ℝ :=
  0.2126 * srgbChannel ((r : ℝ) / 255) + 0.7152 * srgbChannel ((g : ℝ) / 255)
    + 0.0722 * srgbChannel ((b : ℝ) / 255)

/-- `calculateSaturation` (lines 497-504). -/
noncomputable def calculateSaturation (r g b : ℕ) : ℝ :=
  let mx := max ((r : ℝ) / 255) (max ((g : ℝ) / 255) ((b : ℝ) / 255))
  let mn := min ((r : ℝ) / 255) (min ((g : ℝ) / 255) ((b : ℝ) / 255))
  if mx = 0 then 0 else (mx - mn) / mx

/-- `rgbToHsl` (lines 764-788), exact rational arithmetic; the `switch`
on `max` tries the `r` case first, as in the source. -/
def rgbToHsl (r g b : ℕ) : ℚ × ℚ × ℚ :=
  let r' : ℚ := (r : ℚ) / 255
  let g' : ℚ := (g : ℚ) / 255
  let b' : ℚ := (b : ℚ) / 255
  let mx := max r' (max g' b')
  let mn := min r' (min g' b')
  let l := (mx + mn) / 2
  if mx = mn then (0, 0, l)
  else
    let d := mx - mn
    let s := if l > 1/2 then d / (2 - mx - mn) else d / (mx + mn)
    let h6 :=
      if mx = r' then (g' - b') / d + (if g' < b' then 6 else 0)
      else if mx = g' then (b' - r') / d + 2
      else (r' - g') / d + 4
    (h6 / 6 * 360, s, l)

/-- `hue2rgb` helper of `hslToRgb` (lines 796-803). -/
def hue2rgb (p q t : ℚ) : ℚ :=
  let t := if t < 0 then t + 1 else t
  let t := if t > 1 then t - 1 else t
  if t < 1/6 then p + (q - p) * 6 * t
  else if t < 1/2 then q
  else if t < 2/3 then p + (q - p) * (2/3 - t) * 6
  else p

/-- `hslToRgb` (lines 793-818). -/
def hslToRgb (h s l : ℚ) : ℤ × ℤ × ℤ :=
  let h := h / 360
  if s = 0 then (jsRound (l * 255), jsRound (l * 255), jsRound (l * 255))
  else
    let q := if l < 1/2 then l * (1 + s) else l + s - l * s
    let p := 2 * l - q
    (jsRound (hue2rgb p q (h + 1/3) * 255),
     jsRound (hue2rgb p q h * 255),
     jsRound (hue2rgb p q (h - 1/3) * 255))

/-- `Math.min(255, Math.max(0, _))` channel clamp of
`boostColorBrightness`. -/
def clamp255 (z : ℤ) : ℕ := (min 255 (max 0 z)).toNat

/-- `boostColorBrightness` (lines 549-564): raise the HSL lightness to at
least `targetLuminance`, convert back, clamp. -/
def boostColorBrightness (r g b : ℕ) (targetLuminance : ℚ) : ℕ × ℕ × ℕ :=
  let hsl := rgbToHsl r g b
  let l' := max hsl.2.2 targetLuminance
  let boosted := hslToRgb hsl.1 hsl.2.1 l'
  (clamp255 boosted.1, clamp255 boosted.2.1, clamp255 boosted.2.2)

/-- `Math.floor(r / 24) * 24`: quantization of one channel (line 285). -/
def quantize24 (n : ℕ) : ℕ := n / 24 * 24

/-- The sampling loop `for (i = 0; i < data.length; i += 16)` reads every
4th pixel of the flat RGBA array (structural recursion: keep one, skip
three). -/
def stride4 : List RGBA → List RGBA
  | [] => []
  | [p] => [p]
  | [p, _] => [p]
  | [p, _, _] => [p]
  | p :: _ :: _ :: _ :: rest => p :: stride4 rest

/-- `ctx.getImageData(offsetX, offsetY, w, h)`: the row-major rectangle of
the drawn sampling buffer. -/
def getImageData (buf : ℕ → ℕ → RGBA) (offsetX offsetY w h : ℕ) : List RGBA :=
  ((List.range h).map fun y => (List.range w).map fun x => buf (offsetX + x) (offsetY + y)).flatten

/-- One iteration of the frequency-analysis loop (lines 272-304 and the
identical inlined loop of `analyzeImageData`, lines 457-489): skip
near-transparent samples, skip near-black samples when
`ignoreBlackBackground` is set, quantize, then count under the key
`r,g,b` (injective in the triple, so keyed by the triple itself;
JavaScript `Map` iterates in insertion order). -/
noncomputable def addPixel (ignoreBlackBackground : Bool) (colorMap : List Candidate) (p : RGBA) :
    List Candidate :=
  if p.a < 128 then colorMap
  else if ignoreBlackBackground = true ∧ p.r < 30 ∧ p.g < 30 ∧ p.b < 30 then colorMap
  else if colorMap.any fun c => c.rgb = (quantize24 p.r, quantize24 p.g, quantize24 p.b) then
    colorMap.map fun c =>
      if c.rgb = (quantize24 p.r, quantize24 p.g, quantize24 p.b) then
        { c with count := c.count + 1 }
      else c
  else
    colorMap ++ [⟨1, (quantize24 p.r, quantize24 p.g, quantize24 p.b),
      getLuminance (quantize24 p.r) (quantize24 p.g) (quantize24 p.b),
      calculateSaturation (quantize24 p.r) (quantize24 p.g) (quantize24 p.b)⟩]

/-- `analyzeImageData` (lines 443-492): build the frequency table of a
pixel region. The main extraction path (lines 261-304) inlines the same
loop verbatim; both are this function. -/
noncomputable def analyzeImageData (pixels : List RGBA) (ignoreBlackBackground : Bool) :
    List Candidate :=
  (stride4 pixels).foldl (addPixel ignoreBlackBackground) []

/-- `totalScore` of one candidate in `findOptimalColor` (lines 530-535). -/
noncomputable def score (c : Candidate) : ℝ :=
  (min ((c.count : ℝ) / 10) 1 * 0.4 + min (c.saturation * 1.5) 1 * 0.3
      + (1 - |c.luminance - 0.5|) * 0.3)
    * (if c.luminance > 0.25 then 1.2 else 1)

/-- `findOptimalColor` (lines 509-544): best positive-score candidate
inside the luminance bounds; the `enableContrastBoost` parameter is
accepted and ignored, as in the source. -/
noncomputable def findOptimalColor (colorMap : List Candidate) (minLuminance maxLuminance : ℝ)
    (enableContrastBoost : Bool) : Option Candidate :=
  (colorMap.foldl
    (fun acc colorData =>
      if colorData.luminance < minLuminance ∨ colorData.luminance > maxLuminance then acc
      else if score colorData > acc.2 then (some colorData, score colorData) else acc)
    ((none : Option Candidate), (0 : ℝ))).1

/-- The final most-frequent-color loop of `extractDominantColor`
(lines 315-323). -/
def mostFrequent (colorMap : List Candidate) : Option Candidate :=
  (colorMap.foldl
    (fun acc colorData =>
      if colorData.count > acc.2 then (some colorData, colorData.count) else acc)
    ((none : Option Candidate), (0 : ℕ))).1

/-- The three-tier candidate selection of `extractDominantColor`
(lines 306-323): strict bounds, then fixed bounds 0.1..0.9, then the
most frequent candidate. -/
noncomputable def selectColor (colorMap : List Candidate) (minLuminance maxLuminance : ℝ)
    (enableContrastBoost : Bool) : Option Candidate :=
  match findOptimalColor colorMap minLuminance maxLuminance enableContrastBoost with
  | some c => some c
  | none =>
    match findOptimalColor colorMap 0.1 0.9 enableContrastBoost with
    | some c => some c
    | none => mostFrequent colorMap

/-- The result assembly for a chosen candidate (lines 325-342): optional
contrast boost, then hex and recomputed luminance. -/
noncomputable def finishColor (bestColor : Candidate) (enableContrastBoost : Bool) :
    ExtractedColor :=
  let finalRgb :=
    if enableContrastBoost = true ∧ bestColor.luminance < 0.3 then
      boostColorBrightness bestColor.rgb.1 bestColor.rgb.2.1 bestColor.rgb.2.2 (2/5)
    else bestColor.rgb
  ⟨rgbToHex finalRgb.1 finalRgb.2.1 finalRgb.2.2, finalRgb,
    getLuminance finalRgb.1 finalRgb.2.1 finalRgb.2.2⟩

/-- `createFallbackColor` (lines 356-372). -/
noncomputable def createFallbackColor (fallbackHex : String) : ExtractedColor :=
  match hexToRgb fallbackHex with
  | none => ⟨"#6b7280", (107, 114, 128), 0.4⟩
  | some (r, g, b) => ⟨fallbackHex, (r, g, b), getLuminance r g b⟩

/-- The drawn sampling buffer of an element. -/
def canvasOf : PixelSource → (ℕ → ℕ → RGBA)
  | .video _ _ _ buf => buf
  | .image _ _ _ buf => buf
  | .canvasElem buf => buf

/-- The region decision of `extractDominantColor` (lines 209-259).
`isPortraitVideo` needs `element instanceof HTMLVideoElement`,
`analyzePortraitVideo` and aspect ratio `< 1`; `isSplitView` needs an
image, `handleSplitView` and aspect ratio `> 2.5`. The aspect-ratio
comparisons `videoWidth / videoHeight < 1` and
`naturalWidth / naturalHeight > 2.5` are expressed over `ℕ` as `w < h`
and `2 * w > 5 * h`; both match the JavaScript float comparison for every
input, including a zero height (where the JavaScript quotient is `NaN` or
`Infinity`). The floors `Math.floor(s * 0.6)`, `Math.floor(s * 0.8)`,
`Math.floor(s * 0.67)`, `Math.floor((s - w) / 2)` are the natural-number
divisions `s * 6 / 10`, `s * 8 / 10`, `s * 67 / 100`, `(s - w) / 2`. -/
def samplingPlanOf (element : PixelSource) (options : ColorExtractionOptions) : SamplingPlan :=
  let sampleSize := options.sampleSize.getD 50
  let sampleLowerThird := options.sampleLowerThird.getD true
  let analyzePortraitVideo := options.analyzePortraitVideo.getD true
  let handleSplitView := options.handleSplitView.getD true
  let ignoreBlackBackground := options.ignoreBlackBackground.getD true
  let isPortraitVideo : Bool :=
    match element with
    | .video w h _ _ => analyzePortraitVideo && decide (w < h)
    | _ => false
  let isSplitView : Bool :=
    match element with
    | .image w h _ _ => handleSplitView && decide (2 * w > 5 * h)
    | _ => false
  if isPortraitVideo && ignoreBlackBackground then
    let centerWidth := sampleSize * 6 / 10
    let centerHeight := sampleSize * 8 / 10
    let offsetX := (sampleSize - centerWidth) / 2
    let offsetY := (sampleSize - centerHeight) / 2
    .single offsetX offsetY centerWidth centerHeight
  else if isSplitView && handleSplitView then .split
  else if sampleLowerThird then
    let lowerThirdStart := sampleSize * 67 / 100
    .single 0 lowerThirdStart sampleSize (sampleSize - lowerThirdStart)
  else .single 0 0 sampleSize sampleSize

/-- `extractFromSplitView` (lines 389-438). -/
noncomputable def extractFromSplitView (buf : ℕ → ℕ → RGBA) (sampleSize : ℕ)
    (options : ColorExtractionOptions) : ExtractedColor :=
  let halfWidth := sampleSize / 2
  let leftLowerThird := sampleSize * 67 / 100
  let leftData := getImageData buf 0 leftLowerThird halfWidth (sampleSize - leftLowerThird)
  let rightData := getImageData buf halfWidth leftLowerThird halfWidth (sampleSize - leftLowerThird)
  let leftColors := analyzeImageData leftData (options.ignoreBlackBackground.getD true)
  let rightColors := analyzeImageData rightData (options.ignoreBlackBackground.getD true)
  let leftBest := findOptimalColor leftColors (options.minLuminance.getD 0.2)
    (options.maxLuminance.getD 0.85) (options.enableContrastBoost.getD true)
  let rightBest := findOptimalColor rightColors (options.minLuminance.getD 0.2)
    (options.maxLuminance.getD 0.85) (options.enableContrastBoost.getD true)
  match leftBest, rightBest with
  | some leftB, some rightB =>
    let leftScore := leftB.saturation * 0.6 + (1 - |leftB.luminance - 0.5|) * 0.4
    let rightScore := rightB.saturation * 0.6 + (1 - |rightB.luminance - 0.5|) * 0.4
    let winner := if leftScore > rightScore then leftB else rightB
    ⟨rgbToHex winner.rgb.1 winner.rgb.2.1 winner.rgb.2.2, winner.rgb, winner.luminance⟩
  | some bestColor, none =>
    ⟨rgbToHex bestColor.rgb.1 bestColor.rgb.2.1 bestColor.rgb.2.2, bestColor.rgb,
      bestColor.luminance⟩
  | none, some bestColor =>
    ⟨rgbToHex bestColor.rgb.1 bestColor.rgb.2.1 bestColor.rgb.2.2, bestColor.rgb,
      bestColor.luminance⟩
  | none, none => createFallbackColor (options.fallbackColor.getD "#4a5568")

/-- The single-region tail of `extractDominantColor` (lines 261-345):
frequency analysis, three-tier selection, result assembly, fallback. -/
noncomputable def runPipeline (pixels : List RGBA) (options : ColorExtractionOptions) :
    ExtractedColor :=
  let colorMap := analyzeImageData pixels (options.ignoreBlackBackground.getD true)
  match selectColor colorMap (options.minLuminance.getD 0.2) (options.maxLuminance.getD 0.85)
      (options.enableContrastBoost.getD true) with
  | some bestColor => finishColor bestColor (options.enableContrastBoost.getD true)
  | none => createFallbackColor (options.fallbackColor.getD "#4a5568")

/-- The body of `extractDominantColor` after the image-readiness check:
dispatch on the sampling region decision. -/
noncomputable def extractMain (element : PixelSource) (options : ColorExtractionOptions) :
    ExtractedColor :=
  match samplingPlanOf element options with
  | .split => extractFromSplitView (canvasOf element) (options.sampleSize.getD 50) options
  | .single offsetX offsetY w h =>
    runPipeline (getImageData (canvasOf element) offsetX offsetY w h) options

/-- `extractDominantColor` (lines 178-351). An image that is not
`complete` or has `naturalHeight === 0` throws `Image not loaded`, which
the surrounding catch converts to the fallback color (destructuring
default `'#4a5568'`). -/
noncomputable def extractDominantColor (element : PixelSource)
    (options : ColorExtractionOptions) : ExtractedColor :=
  match element with
  | .image _ naturalHeight complete _ =>
    if complete = false ∨ naturalHeight = 0 then
      createFallbackColor (options.fallbackColor.getD "#4a5568")
    else extractMain element options
  | _ => extractMain element options

/-- The option preset of `extractColorFromVideo` (lines 647-655):
the enumerated fields are written first and `...options` overrides each
of them whenever the caller supplied the field. -/
def mergeVideoOptions (options : ColorExtractionOptions) : ColorExtractionOptions :=
  { options with
    fallbackColor := some (options.fallbackColor.getD "#4a5568")
    enableContrastBoost := some (options.enableContrastBoost.getD true)
    ignoreBlackBackground := some (options.ignoreBlackBackground.getD true)
    minLuminance := some (options.minLuminance.getD 0.25)
    maxLuminance := some (options.maxLuminance.getD 0.8)
    analyzePortraitVideo := some (options.analyzePortraitVideo.getD true) }

/-- `extractColorFromVideo` (lines 635-658). -/
noncomputable def extractColorFromVideo (videoWidth videoHeight readyState : ℕ)
    (buf : ℕ → ℕ → RGBA) (options : ColorExtractionOptions) : ExtractedColor :=
  if boolTruthy options.useFallbackOnly && strTruthy options.fallbackColor then
    createFallbackColor (options.fallbackColor.getD "")
  else if readyState < 2 then
    createFallbackColor (jsOrStr options.fallbackColor "#4a5568")
  else
    extractDominantColor (.video videoWidth videoHeight readyState buf)
      (mergeVideoOptions options)

/-- The option preset of the `onload` handler of
`extractColorFromImageUrl` (lines 601-606). -/
def mergeImageOptions (options : ColorExtractionOptions) : ColorExtractionOptions :=
  { options with
    fallbackColor := some (options.fallbackColor.getD "#6b7280")
    enableContrastBoost := some (options.enableContrastBoost.getD true)
    ignoreBlackBackground := some (options.ignoreBlackBackground.getD true) }

/-- `extractColorFromImageUrl` (lines 570-629), with the asynchronous
load outcome made explicit: `loadOk = true` runs the `onload` handler on
the decoded image, `loadOk = false` runs `onerror`; `.ok` is `resolve`
and `.error` is `reject`. -/
noncomputable def extractColorFromImageUrl (imageUrl : String) (loadOk : Bool)
    (img : PixelSource) (options : ColorExtractionOptions) : Except String ExtractedColor :=
  if boolTruthy options.useFallbackOnly && strTruthy options.fallbackColor then
    .ok (createFallbackColor (options.fallbackColor.getD ""))
  else if imageUrl = "" && strTruthy options.fallbackColor then
    .ok (createFallbackColor (options.fallbackColor.getD ""))
  else if loadOk then
    .ok (extractDominantColor img (mergeImageOptions options))
  else if strTruthy options.fallbackColor then
    .ok (createFallbackColor (options.fallbackColor.getD ""))
  else
    .error "Failed to load image for color extraction"

/-! ## Specification predicates and shared concrete inputs -/

/-- A candidate passes the luminance filter of `findOptimalColor`. -/
def inBounds (minLuminance maxLuminance : ℝ) (c : Candidate) : Prop :=
  minLuminance ≤ c.luminance ∧ c.luminance ≤ maxLuminance

/-- A lowercase hexadecimal digit. -/
def isLowerHexDigit (c : Char) : Bool :=
  decide ('0' ≤ c ∧ c ≤ '9') || decide ('a' ≤ c ∧ c ≤ 'f')

/-- The output shape asserted by the spec: exactly 7 characters, a
leading `#`, six lowercase hex digits. -/
def isWellFormedHex (s : String) : Bool :=
  decide (s.data.length = 7) && decide (s.data.take 1 = ['#'])
    && (s.data.drop 1).all isLowerHexDigit

/-! ## Shared concrete inputs -/

/-- An all-black opaque sampling buffer. -/
def blackBuf : ℕ → ℕ → RGBA := fun _ _ => ⟨0, 0, 0, 255⟩

/-- A uniform dark-red opaque sampling buffer. -/
def redBuf : ℕ → ℕ → RGBA := fun _ _ => ⟨100, 0, 0, 255⟩

/-- The invariant claimed by the spec: a result's `luminance` equals the
luminance recomputed from its own `rgb`. -/
def lumConsistent (ec : ExtractedColor) : Prop :=
  ec.luminance = getLuminance ec.rgb.1 ec.rgb.2.1 ec.rgb.2.2

/-- The frequency-table entry produced by two samples of `rgb(100,0,0)`. -/
noncomputable def darkRedEntry : Candidate :=
  ⟨2, (96, 0, 0), getLuminance 96 0 0, calculateSaturation 96 0 0⟩

/-! ## Support lemmas: bounds on the sRGB luminance -/

theorem srgbChannel_nonneg {c : ℝ} (hc : 0 ≤ c) : 0 ≤ srgbChannel c := by
  rw [srgbChannel]
  split
  · positivity
  · positivity

theorem srgbChannel_le_one {c : ℝ} (hc0 : 0 ≤ c) (hc1 : c ≤ 1) : srgbChannel c ≤ 1 := by
  rw [srgbChannel]
  split
  · rw [div_le_one (by norm_num)]
    linarith
  · exact Real.rpow_le_one (by positivity) (by rw [div_le_one (by norm_num)]; linarith)
      (by norm_num)

theorem srgbChannel_le_sq {c : ℝ} (hc : ¬ c ≤ 0.03928) (hc1 : c ≤ 1) :
    srgbChannel c ≤ ((c + 0.055) / 1.055) ^ 2 := by
  push_neg at hc
  rw [srgbChannel, if_neg (by linarith)]
  have hpos : 0 < (c + 0.055) / 1.055 := by positivity
  have hle : (c + 0.055) / 1.055 ≤ 1 := by rw [div_le_one (by norm_num)]; linarith
  calc ((c + 0.055) / 1.055) ^ (2.4 : ℝ)
      ≤ ((c + 0.055) / 1.055) ^ (((2 : ℕ) : ℝ)) :=
        Real.rpow_le_rpow_of_exponent_ge hpos hle (by norm_num)
    _ = ((c + 0.055) / 1.055) ^ (2 : ℕ) := Real.rpow_natCast _ 2

theorem getLuminance_nonneg (r g b : ℕ) : 0 ≤ getLuminance r g b := by
  rw [getLuminance]
  have h1 := srgbChannel_nonneg (c := (r : ℝ) / 255) (by positivity)
  have h2 := srgbChannel_nonneg (c := (g : ℝ) / 255) (by positivity)
  have h3 := srgbChannel_nonneg (c := (b : ℝ) / 255) (by positivity)
  linarith

theorem getLuminance_le_one {r g b : ℕ} (hr : r ≤ 255) (hg : g ≤ 255) (hb : b ≤ 255) :
    getLuminance r g b ≤ 1 := by
  rw [getLuminance]
  have cr : ((r : ℝ)) ≤ 255 := by exact_mod_cast hr
  have cg : ((g : ℝ)) ≤ 255 := by exact_mod_cast hg
  have cb : ((b : ℝ)) ≤ 255 := by exact_mod_cast hb
  have h1 := srgbChannel_le_one (c := (r : ℝ) / 255) (by positivity)
    (by rw [div_le_one (by norm_num)]; linarith)
  have h2 := srgbChannel_le_one (c := (g : ℝ) / 255) (by positivity)
    (by rw [div_le_one (by norm_num)]; linarith)
  have h3 := srgbChannel_le_one (c := (b : ℝ) / 255) (by positivity)
    (by rw [div_le_one (by norm_num)]; linarith)
  have h4 := srgbChannel_nonneg (c := (r : ℝ) / 255) (by positivity)
  have h5 := srgbChannel_nonneg (c := (g : ℝ) / 255) (by positivity)
  have h6 := srgbChannel_nonneg (c := (b : ℝ) / 255) (by positivity)
  linarith

/-- The hardcoded ultimate-fallback luminance `0.4` is not the luminance
of the hardcoded ultimate-fallback color `rgb(107,114,128)`. -/
theorem lum_gray_lt : getLuminance 107 114 128 < 0.4 := by
  rw [getLuminance]
  have h1 := srgbChannel_le_sq (c := ((107 : ℕ) : ℝ) / 255) (by push_cast; norm_num)
    (by push_cast; norm_num)
  have h2 := srgbChannel_le_sq (c := ((114 : ℕ) : ℝ) / 255) (by push_cast; norm_num)
    (by push_cast; norm_num)
  have h3 := srgbChannel_le_sq (c := ((128 : ℕ) : ℝ) / 255) (by push_cast; norm_num)
    (by push_cast; norm_num)
  have e1 : ((((107 : ℕ) : ℝ) / 255 + 0.055) / 1.055) ^ 2 ≤ 0.2024 := by push_cast; norm_num
  have e2 : ((((114 : ℕ) : ℝ) / 255 + 0.055) / 1.055) ^ 2 ≤ 0.2265 := by push_cast; norm_num
  have e3 : ((((128 : ℕ) : ℝ) / 255 + 0.055) / 1.055) ^ 2 ≤ 0.2788 := by push_cast; norm_num
  linarith

/-- The quantized dark red `rgb(96,0,0)` has luminance below `0.25`. -/
theorem lum_dark_red_lt : getLuminance 96 0 0 < 0.25 := by
  rw [getLuminance]
  have h1 := srgbChannel_le_sq (c := ((96 : ℕ) : ℝ) / 255) (by push_cast; norm_num)
    (by push_cast; norm_num)
  have e1 : ((((96 : ℕ) : ℝ) / 255 + 0.055) / 1.055) ^ 2 ≤ 0.1673 := by push_cast; norm_num
  have h0 : srgbChannel (((0 : ℕ) : ℝ) / 255) = 0 := by
    rw [srgbChannel, if_pos (by push_cast; norm_num)]
    push_cast
    norm_num
  rw [h0]
  linarith

/-! ## Support lemmas: the selection folds -/

theorem score_pos {c : Candidate} (hcount : 1 ≤ c.count) (hsat : 0 ≤ c.saturation)
    (hl0 : 0 ≤ c.luminance) (hl1 : c.luminance ≤ 1) : 0 < score c := by
  rw [score]
  have hA : (1 : ℝ) / 10 ≤ min ((c.count : ℝ) / 10) 1 := by
    refine le_min ?_ (by norm_num)
    have : (1 : ℝ) ≤ (c.count : ℝ) := by exact_mod_cast hcount
    linarith
  have hB : (0 : ℝ) ≤ min (c.saturation * 1.5) 1 := le_min (by positivity) (by norm_num)
  have hC : |c.luminance - 0.5| ≤ 0.5 := abs_le.mpr ⟨by linarith, by linarith⟩
  split <;> nlinarith

theorem fo_fold_inv (minL maxL : ℝ) (l : List Candidate) (acc : Option Candidate × ℝ)
    (seen : List Candidate)
    (hinv : (acc.1 = none ∧ acc.2 = 0 ∧ ∀ c ∈ seen, inBounds minL maxL c → score c ≤ 0) ∨
      (∃ c, acc.1 = some c ∧ acc.2 = score c ∧ c ∈ seen ∧ inBounds minL maxL c ∧
        0 < score c ∧ ∀ cc ∈ seen, inBounds minL maxL cc → score cc ≤ score c)) :
    (let res := l.foldl
      (fun acc colorData =>
        if colorData.luminance < minL ∨ colorData.luminance > maxL then acc
        else if score colorData > acc.2 then (some colorData, score colorData) else acc) acc
    (res.1 = none ∧ res.2 = 0 ∧ ∀ c ∈ seen ++ l, inBounds minL maxL c → score c ≤ 0) ∨
      (∃ c, res.1 = some c ∧ res.2 = score c ∧ c ∈ seen ++ l ∧ inBounds minL maxL c ∧
        0 < score c ∧ ∀ cc ∈ seen ++ l, inBounds minL maxL cc → score cc ≤ score c)) := by
  induction l generalizing acc seen with
  | nil => simpa using hinv
  | cons d tl ih =>
    simp only [List.foldl_cons]
    have hstep := ih
      (if d.luminance < minL ∨ d.luminance > maxL then acc
        else if score d > acc.2 then (some d, score d) else acc)
      (seen ++ [d])
    have happ : seen ++ d :: tl = (seen ++ [d]) ++ tl := by simp
    rw [happ]
    apply hstep
    by_cases hskip : d.luminance < minL ∨ d.luminance > maxL
    · rw [if_pos hskip]
      have hdnot : ¬ inBounds minL maxL d := by
        intro hin
        rcases hskip with h | h
        · exact absurd h (not_lt.mpr hin.1)
        · exact absurd h (not_lt.mpr hin.2)
      rcases hinv with ⟨h1, h2, h3⟩ | ⟨c, h1, h2, h3, h4, h5, h6⟩
      · refine Or.inl ⟨h1, h2, ?_⟩
        intro c hc hin
        rcases List.mem_append.mp hc with hc | hc
        · exact h3 c hc hin
        · simp only [List.mem_singleton] at hc
          subst hc
          exact absurd hin hdnot
      · refine Or.inr ⟨c, h1, h2, List.mem_append_left _ h3, h4, h5, ?_⟩
        intro cc hcc hin
        rcases List.mem_append.mp hcc with hcc | hcc
        · exact h6 cc hcc hin
        · simp only [List.mem_singleton] at hcc
          subst hcc
          exact absurd hin hdnot
    · rw [if_neg hskip]
      push_neg at hskip
      have hdin : inBounds minL maxL d := ⟨hskip.1, hskip.2⟩
      by_cases hgt : score d > acc.2
      · rw [if_pos hgt]
        have hdpos : 0 < score d := by
          rcases hinv with ⟨_, h2, _⟩ | ⟨c, _, h2, _, _, h5, _⟩
          · rw [h2] at hgt
            exact hgt
          · rw [h2] at hgt
            exact lt_trans h5 hgt
        refine Or.inr ⟨d, rfl, rfl, List.mem_append_right _ (List.mem_singleton.mpr rfl),
          hdin, hdpos, ?_⟩
        intro cc hcc hin
        rcases List.mem_append.mp hcc with hcc | hcc
        · rcases hinv with ⟨_, h2, h3⟩ | ⟨c, _, h2, _, _, _, h6⟩
          · exact le_of_lt (lt_of_le_of_lt (h3 cc hcc hin) hdpos)
          · rw [h2] at hgt
            exact le_of_lt (lt_of_le_of_lt (h6 cc hcc hin) hgt)
        · simp only [List.mem_singleton] at hcc
          subst hcc
          exact le_refl _
      · rw [if_neg hgt]
        have hle : score d ≤ acc.2 := not_lt.mp hgt
        rcases hinv with ⟨h1, h2, h3⟩ | ⟨c, h1, h2, h3, h4, h5, h6⟩
        · refine Or.inl ⟨h1, h2, ?_⟩
          intro cc hcc hin
          rcases List.mem_append.mp hcc with hcc | hcc
          · exact h3 cc hcc hin
          · simp only [List.mem_singleton] at hcc
            subst hcc
            rw [h2] at hle
            exact hle
        · refine Or.inr ⟨c, h1, h2, List.mem_append_left _ h3, h4, h5, ?_⟩
          intro cc hcc hin
          rcases List.mem_append.mp hcc with hcc | hcc
          · exact h6 cc hcc hin
          · simp only [List.mem_singleton] at hcc
            subst hcc
            rw [h2] at hle
            exact hle
theorem findOptimalColor_inv (colorMap : List Candidate) (minL maxL : ℝ) (e : Bool) :
    (findOptimalColor colorMap minL maxL e = none ∧
        ∀ c ∈ colorMap, inBounds minL maxL c → score c ≤ 0) ∨
      (∃ c, findOptimalColor colorMap minL maxL e = some c ∧ c ∈ colorMap ∧
        inBounds minL maxL c ∧ 0 < score c ∧
        ∀ cc ∈ colorMap, inBounds minL maxL cc → score cc ≤ score c) := by
  have h := fo_fold_inv minL maxL colorMap ((none : Option Candidate), (0 : ℝ)) []
    (Or.inl ⟨rfl, rfl, by simp⟩)
  simp only [List.nil_append] at h
  rcases h with ⟨h1, _, h3⟩ | ⟨c, h1, _, h3, h4, h5, h6⟩
  · exact Or.inl ⟨h1, h3⟩
  · exact Or.inr ⟨c, h1, h3, h4, h5, h6⟩

theorem findOptimalColor_mem {colorMap : List Candidate} {minL maxL : ℝ} {e : Bool}
    {c : Candidate} (h : findOptimalColor colorMap minL maxL e = some c) :
    c ∈ colorMap ∧ inBounds minL maxL c := by
  rcases findOptimalColor_inv colorMap minL maxL e with ⟨h1, _⟩ | ⟨d, h1, h3, h4, _, _⟩
  · rw [h] at h1
    exact absurd h1 (by simp)
  · rw [h] at h1
    obtain rfl : c = d := by simpa using h1
    exact ⟨h3, h4⟩

theorem findOptimalColor_max {colorMap : List Candidate} {minL maxL : ℝ} {e : Bool}
    (hpos : ∀ c ∈ colorMap, inBounds minL maxL c → 0 < score c)
    (hex : ∃ c ∈ colorMap, inBounds minL maxL c) :
    ∃ c, findOptimalColor colorMap minL maxL e = some c ∧ c ∈ colorMap ∧
      inBounds minL maxL c ∧ ∀ cc ∈ colorMap, inBounds minL maxL cc → score cc ≤ score c := by
  rcases findOptimalColor_inv colorMap minL maxL e with ⟨_, h3⟩ | ⟨c, h1, h3, h4, _, h6⟩
  · obtain ⟨c, hc, hin⟩ := hex
    exact absurd (h3 c hc hin) (not_le.mpr (hpos c hc hin))
  · exact ⟨c, h1, h3, h4, h6⟩

theorem findOptimalColor_none {colorMap : List Candidate} {minL maxL : ℝ} {e : Bool}
    (h : ∀ c ∈ colorMap, ¬ inBounds minL maxL c) :
    findOptimalColor colorMap minL maxL e = none := by
  rcases findOptimalColor_inv colorMap minL maxL e with ⟨h1, _⟩ | ⟨c, _, h3, h4, _, _⟩
  · exact h1
  · exact absurd h4 (h c h3)

theorem mf_fold_inv (l : List Candidate) (acc : Option Candidate × ℕ) (seen : List Candidate)
    (hinv : (acc.1 = none ∧ acc.2 = 0 ∧ ∀ c ∈ seen, c.count = 0) ∨
      (∃ c, acc.1 = some c ∧ acc.2 = c.count ∧ c ∈ seen ∧ 0 < c.count ∧
        ∀ cc ∈ seen, cc.count ≤ c.count)) :
    (let res := l.foldl
      (fun acc colorData =>
        if colorData.count > acc.2 then (some colorData, colorData.count) else acc) acc
    (res.1 = none ∧ res.2 = 0 ∧ ∀ c ∈ seen ++ l, c.count = 0) ∨
      (∃ c, res.1 = some c ∧ res.2 = c.count ∧ c ∈ seen ++ l ∧ 0 < c.count ∧
        ∀ cc ∈ seen ++ l, cc.count ≤ c.count)) := by
  induction l generalizing acc seen with
  | nil => simpa using hinv
  | cons d tl ih =>
    simp only [List.foldl_cons]
    have happ : seen ++ d :: tl = (seen ++ [d]) ++ tl := by simp
    rw [happ]
    apply ih
    by_cases hgt : d.count > acc.2
    · rw [if_pos hgt]
      have hdpos : 0 < d.count := by
        rcases hinv with ⟨_, h2, _⟩ | ⟨c, _, h2, _, h4, _⟩
        · rw [h2] at hgt
          exact hgt
        · rw [h2] at hgt
          exact lt_trans h4 hgt
      refine Or.inr ⟨d, rfl, rfl, List.mem_append_right _ (List.mem_singleton.mpr rfl),
        hdpos, ?_⟩
      intro cc hcc
      rcases List.mem_append.mp hcc with hcc | hcc
      · rcases hinv with ⟨_, h2, h3⟩ | ⟨c, _, h2, _, _, h5⟩
        · rw [h3 cc hcc]
          exact Nat.zero_le _
        · rw [h2] at hgt
          exact le_of_lt (lt_of_le_of_lt (h5 cc hcc) hgt)
      · simp only [List.mem_singleton] at hcc
        subst hcc
        exact le_refl _
    · rw [if_neg hgt]
      have hle : d.count ≤ acc.2 := not_lt.mp hgt
      rcases hinv with ⟨h1, h2, h3⟩ | ⟨c, h1, h2, h3, h4, h5⟩
      · refine Or.inl ⟨h1, h2, ?_⟩
        intro cc hcc
        rcases List.mem_append.mp hcc with hcc | hcc
        · exact h3 cc hcc
        · simp only [List.mem_singleton] at hcc
          subst hcc
          omega
      · refine Or.inr ⟨c, h1, h2, List.mem_append_left _ h3, h4, ?_⟩
        intro cc hcc
        rcases List.mem_append.mp hcc with hcc | hcc
        · exact h5 cc hcc
        · simp only [List.mem_singleton] at hcc
          subst hcc
          omega

theorem mostFrequent_max {colorMap : List Candidate} (hne : colorMap ≠ [])
    (hcount : ∀ c ∈ colorMap, 1 ≤ c.count) :
    ∃ c, mostFrequent colorMap = some c ∧ c ∈ colorMap ∧
      ∀ cc ∈ colorMap, cc.count ≤ c.count := by
  have h := mf_fold_inv colorMap ((none : Option Candidate), (0 : ℕ)) []
    (Or.inl ⟨rfl, rfl, by simp⟩)
  simp only [List.nil_append] at h
  rcases h with ⟨_, _, h3⟩ | ⟨c, h1, _, h3, _, h5⟩
  · obtain ⟨c, hc⟩ := List.exists_mem_of_ne_nil colorMap hne
    have := hcount c hc
    have := h3 c hc
    omega
  · rw [mostFrequent]
    exact ⟨c, h1, h3, h5⟩

/-! ## Support lemmas: the frequency analyzer -/

theorem stride4_subset (l : List RGBA) : ∀ p ∈ stride4 l, p ∈ l := by
  induction l using stride4.induct with
  | case1 =>
    intro p hp
    simp [stride4] at hp
  | case2 q =>
    intro p hp
    simp only [stride4, List.mem_singleton] at hp
    simp [hp]
  | case3 q a =>
    intro p hp
    simp only [stride4, List.mem_singleton] at hp
    simp [hp]
  | case4 q a b =>
    intro p hp
    simp only [stride4, List.mem_singleton] at hp
    simp [hp]
  | case5 q a b c rest ih =>
    intro p hp
    rw [stride4] at hp
    rcases List.mem_cons.mp hp with h | h
    · simp [h]
    · have := ih p h
      simp only [List.mem_cons]
      tauto

theorem getImageData_mem {buf : ℕ → ℕ → RGBA} {offsetX offsetY w h : ℕ} {p : RGBA}
    (hp : p ∈ getImageData buf offsetX offsetY w h) : ∃ x y, p = buf x y := by
  rw [getImageData] at hp
  simp only [List.mem_flatten, List.mem_map, List.mem_range] at hp
  obtain ⟨row, ⟨y, _, hrow⟩, hmem⟩ := hp
  subst hrow
  simp only [List.mem_map, List.mem_range] at hmem
  obtain ⟨x, _, hx⟩ := hmem
  exact ⟨offsetX + x, offsetY + y, hx.symm⟩

/-- A near-black sample is discarded whenever `ignoreBlackBackground` is
set (and a near-transparent one always is), so it never reaches the map. -/
theorem addPixel_skip {colorMap : List Candidate} {p : RGBA}
    (hr : p.r < 30) (hg : p.g < 30) (hb : p.b < 30) :
    addPixel true colorMap p = colorMap := by
  rw [addPixel]
  by_cases ha : p.a < 128
  · rw [if_pos ha]
  · rw [if_neg ha, if_pos ⟨rfl, hr, hg, hb⟩]

/-- Properties preserved along the analysis fold: every map entry has its
luminance and saturation computed from its own quantized rgb triple, a
positive count, and channels bounded by the channels seen. -/
theorem analyze_fold_prop (P : Candidate → Prop)
    (hinc : ∀ c, P c → P { c with count := c.count + 1 })
    (hnew : ∀ r g b : ℕ, r ≤ 255 → g ≤ 255 → b ≤ 255 →
      P ⟨1, (quantize24 r, quantize24 g, quantize24 b),
        getLuminance (quantize24 r) (quantize24 g) (quantize24 b),
        calculateSaturation (quantize24 r) (quantize24 g) (quantize24 b)⟩)
    (ib : Bool) (l : List RGBA) (hl : ∀ p ∈ l, p.r ≤ 255 ∧ p.g ≤ 255 ∧ p.b ≤ 255)
    (acc : List Candidate) (hacc : ∀ c ∈ acc, P c) :
    ∀ c ∈ l.foldl (addPixel ib) acc, P c := by
  induction l generalizing acc with
  | nil => simpa using hacc
  | cons p tl ih =>
    simp only [List.foldl_cons]
    refine ih (fun q hq => hl q (List.mem_cons_of_mem _ hq)) _ ?_
    intro c hc
    rw [addPixel] at hc
    split at hc
    · exact hacc c hc
    · split at hc
      · exact hacc c hc
      · obtain ⟨hr, hg, hb⟩ := hl p (List.mem_cons_self _ _)
        split at hc
        · rcases List.mem_map.mp hc with ⟨c₀, hc₀, hcc⟩
          subst hcc
          split
          · exact hinc c₀ (hacc c₀ hc₀)
          · exact hacc c₀ hc₀
        · rcases List.mem_append.mp hc with h | h
          · exact hacc c h
          · simp only [List.mem_singleton] at h
            subst h
            exact hnew p.r p.g p.b hr hg hb

/-- Every entry of a frequency table built by the analyzer stores the
luminance and saturation of its own rgb triple. -/
theorem analyzeImageData_consistent (pixels : List RGBA) (ib : Bool)
    (hpx : ∀ p ∈ pixels, p.r ≤ 255 ∧ p.g ≤ 255 ∧ p.b ≤ 255) :
    ∀ c ∈ analyzeImageData pixels ib,
      c.luminance = getLuminance c.rgb.1 c.rgb.2.1 c.rgb.2.2 ∧
        c.saturation = calculateSaturation c.rgb.1 c.rgb.2.1 c.rgb.2.2 := by
  rw [analyzeImageData]
  exact analyze_fold_prop _ (fun c hc => hc) (fun r g b _ _ _ => ⟨rfl, rfl⟩) ib _
    (fun p hp => hpx p (stride4_subset pixels p hp)) [] (by simp)

theorem calculateSaturation_nonneg (r g b : ℕ) : 0 ≤ calculateSaturation r g b := by
  rw [calculateSaturation]
  split
  · exact le_refl 0
  · rename_i hmx
    have h1 : ((r : ℝ)) / 255 ≤ max ((r : ℝ) / 255) (max ((g : ℝ) / 255) ((b : ℝ) / 255)) :=
      le_max_left _ _
    have h0 : (0 : ℝ) ≤ (r : ℝ) / 255 := by positivity
    have hmn : min ((r : ℝ) / 255) (min ((g : ℝ) / 255) ((b : ℝ) / 255)) ≤
        max ((r : ℝ) / 255) (max ((g : ℝ) / 255) ((b : ℝ) / 255)) :=
      le_trans (min_le_left _ _) (le_max_left _ _)
    have hpos : 0 < max ((r : ℝ) / 255) (max ((g : ℝ) / 255) ((b : ℝ) / 255)) :=
      lt_of_le_of_ne (le_trans h0 h1) (Ne.symm hmx)
    exact div_nonneg (by linarith) (le_of_lt hpos)

theorem quantize24_le (n : ℕ) : quantize24 n ≤ n := Nat.div_mul_le_self n 24

/-- Every entry of a frequency table built from in-range samples is a
wellformed candidate: positive count, nonnegative saturation, luminance
in `[0,1]`. -/
theorem analyzeImageData_wellformed (pixels : List RGBA) (ib : Bool)
    (hpx : ∀ p ∈ pixels, p.r ≤ 255 ∧ p.g ≤ 255 ∧ p.b ≤ 255) :
    ∀ c ∈ analyzeImageData pixels ib,
      1 ≤ c.count ∧ 0 ≤ c.saturation ∧ 0 ≤ c.luminance ∧ c.luminance ≤ 1 := by
  rw [analyzeImageData]
  refine analyze_fold_prop _ (fun c hc => ⟨Nat.le_succ_of_le hc.1, hc.2⟩) ?_ ib _
    (fun p hp => hpx p (stride4_subset pixels p hp)) [] (by simp)
  intro r g b hr hg hb
  refine ⟨le_refl 1, calculateSaturation_nonneg _ _ _, getLuminance_nonneg _ _ _,
    getLuminance_le_one ?_ ?_ ?_⟩
  · exact le_trans (quantize24_le r) hr
  · exact le_trans (quantize24_le g) hg
  · exact le_trans (quantize24_le b) hb

/-- A region whose samples are all near-black produces an empty frequency
table when `ignoreBlackBackground` is on. -/
theorem analyzeImageData_black (pixels : List RGBA)
    (hpx : ∀ p ∈ pixels, p.r < 30 ∧ p.g < 30 ∧ p.b < 30) :
    analyzeImageData pixels true = [] := by
  rw [analyzeImageData]
  have : ∀ l : List RGBA, (∀ p ∈ l, p.r < 30 ∧ p.g < 30 ∧ p.b < 30) →
      ∀ acc : List Candidate, l.foldl (addPixel true) acc = acc := by
    intro l
    induction l with
    | nil => intro _ acc; rfl
    | cons p tl ih =>
      intro hl acc
      obtain ⟨hr, hg, hb⟩ := hl p (List.mem_cons_self _ _)
      simp only [List.foldl_cons, addPixel_skip hr hg hb]
      exact ih (fun q hq => hl q (List.mem_cons_of_mem _ hq)) acc
  exact this _ (fun p hp => hpx p (stride4_subset pixels p hp)) []

/-! ## Support lemmas: hex output shape -/

set_option maxRecDepth 20000 in
theorem toHexPair_ok : ∀ n, n ≤ 255 →
    (toHexPair n).data.length = 2 ∧ (toHexPair n).data.all isLowerHexDigit = true := by decide

theorem rgbToHex_wellFormed {r g b : ℕ} (hr : r ≤ 255) (hg : g ≤ 255) (hb : b ≤ 255) :
    isWellFormedHex (rgbToHex r g b) = true := by
  obtain ⟨lr, ar⟩ := toHexPair_ok r hr
  obtain ⟨lg, ag⟩ := toHexPair_ok g hg
  obtain ⟨lb, ab⟩ := toHexPair_ok b hb
  have hdata : (rgbToHex r g b).data =
      '#' :: ((toHexPair r).data ++ (toHexPair g).data ++ (toHexPair b).data) := by
    rw [rgbToHex]
    simp [String.data_append]
  rw [isWellFormedHex, hdata]
  simp [List.all_append, ar, ag, ab, lr, lg, lb]

/-! ## Claim C1 -/

/-- C1 (counterexample): with `analyzePortraitVideo` enabled but
`ignoreBlackBackground` disabled, a portrait video (9:16) is NOT analyzed
over the centered 60% x 80% region: the default lower-third band
`(0, 33, 50, 17)` is sampled instead of the centered `(10, 5, 30, 40)`,
so the centered region does not apply "regardless of the other option
flags". -/
theorem portrait_center_needs_ignoreBlack_counterexample :
    samplingPlanOf (.video 9 16 2 blackBuf)
        { analyzePortraitVideo := some true, ignoreBlackBackground := some false } =
      .single 0 33 50 17
    ∧ extractDominantColor (.video 9 16 2 blackBuf)
        { analyzePortraitVideo := some true, ignoreBlackBackground := some false } =
      runPipeline (getImageData blackBuf 0 33 50 17)
        { analyzePortraitVideo := some true, ignoreBlackBackground := some false }
    ∧ (SamplingPlan.single 0 33 50 17) ≠ .single 10 5 30 40 := by
  refine ⟨by decide, ?_, by decide⟩
  rfl

/-- C1 (amended): for every video source with aspect ratio below one and
every options value with BOTH `analyzePortraitVideo` and
`ignoreBlackBackground` enabled (the code requires the latter too, at
line 239), `extractDominantColor` analyzes the centered region covering
`floor(0.6 s)` of the sampled width and `floor(0.8 s)` of the sampled
height, taking precedence over split-view, lower-third and full-frame
sampling, regardless of the remaining option flags. -/
theorem portrait_center_region_amended (vw vh rs : ℕ) (buf : ℕ → ℕ → RGBA)
    (options : ColorExtractionOptions)
    (hapv : options.analyzePortraitVideo.getD true = true)
    (hib : options.ignoreBlackBackground.getD true = true)
    (hratio : vw < vh) :
    samplingPlanOf (.video vw vh rs buf) options =
      .single ((options.sampleSize.getD 50 - options.sampleSize.getD 50 * 6 / 10) / 2)
        ((options.sampleSize.getD 50 - options.sampleSize.getD 50 * 8 / 10) / 2)
        (options.sampleSize.getD 50 * 6 / 10) (options.sampleSize.getD 50 * 8 / 10)
    ∧ extractDominantColor (.video vw vh rs buf) options =
      runPipeline
        (getImageData buf
          ((options.sampleSize.getD 50 - options.sampleSize.getD 50 * 6 / 10) / 2)
          ((options.sampleSize.getD 50 - options.sampleSize.getD 50 * 8 / 10) / 2)
          (options.sampleSize.getD 50 * 6 / 10) (options.sampleSize.getD 50 * 8 / 10))
        options := by
  have hplan : samplingPlanOf (.video vw vh rs buf) options =
      .single ((options.sampleSize.getD 50 - options.sampleSize.getD 50 * 6 / 10) / 2)
        ((options.sampleSize.getD 50 - options.sampleSize.getD 50 * 8 / 10) / 2)
        (options.sampleSize.getD 50 * 6 / 10) (options.sampleSize.getD 50 * 8 / 10) := by
    rw [samplingPlanOf]
    simp only [hapv, hib, hratio, decide_True, Bool.and_self, Bool.true_and, if_true]
  refine ⟨hplan, ?_⟩
  rw [extractDominantColor, extractMain, hplan]
  · rfl
  · intro w h complete buf₁ hcontra
    exact PixelSource.noConfusion hcontra

/-- C1 (witness): at sample size 50 the centered region is
`(10, 5, 30, 40)`, for a 9:16 portrait video with default options. -/
theorem portrait_center_region_amended_witness :
    (ColorExtractionOptions.analyzePortraitVideo {} ).getD true = true
    ∧ (ColorExtractionOptions.ignoreBlackBackground {}).getD true = true
    ∧ 9 < 16
    ∧ samplingPlanOf (.video 9 16 2 blackBuf) {} = .single 10 5 30 40 := by
  refine ⟨rfl, rfl, by norm_num, ?_⟩
  have h := portrait_center_region_amended 9 16 2 blackBuf {} rfl rfl (by norm_num)
  exact h.1

theorem clamp255_le (z : ℤ) : clamp255 z ≤ 255 := by
  rw [clamp255]
  omega

/-! ## Claim C3 -/

/-- C3 (counterexample): the regex of `hexToRgb` accepts `AABBCC`
(uppercase, no leading `#`), and `createFallbackColor` echoes the
configured string verbatim into the `hex` field, so an extraction call
can return a `hex` that is not 7 lowercase characters with a leading
`#`. -/
theorem hex_shape_counterexample :
    (extractColorFromVideo 1 1 0 blackBuf { fallbackColor := some "AABBCC" }).hex = "AABBCC"
    ∧ isWellFormedHex "AABBCC" = false := by
  exact ⟨rfl, by decide⟩

/-- C3 (amended): every `hex` produced by `rgbToHex` from channels in
`[0,255]` is exactly `#` followed by six lowercase hex digits (7
characters), and so is the hardcoded gray `#6b7280` used when the
configured fallback string does not parse; but on the configured-fallback
path the `hex` field is the configured string echoed verbatim, so there
the shape holds only if the configured string already has it. -/
theorem hex_shape_amended (r g b : ℕ) (hr : r ≤ 255) (hg : g ≤ 255) (hb : b ≤ 255)
    (c : Candidate) (e : Bool) (s : String) :
    isWellFormedHex (rgbToHex r g b) = true
    ∧ (hexToRgb s = none → (createFallbackColor s).hex = "#6b7280")
    ∧ (∀ p, hexToRgb s = some p → (createFallbackColor s).hex = s)
    ∧ isWellFormedHex "#6b7280" = true
    ∧ (c.rgb.1 ≤ 255 → c.rgb.2.1 ≤ 255 → c.rgb.2.2 ≤ 255 →
        isWellFormedHex (finishColor c e).hex = true) := by
  refine ⟨rgbToHex_wellFormed hr hg hb, ?_, ?_, by decide, ?_⟩
  · intro h
    simp [createFallbackColor, h]
  · intro p h
    rcases p with ⟨pr, pg, pb⟩
    simp [createFallbackColor, h]
  · intro h1 h2 h3
    rw [finishColor]
    split
    · exact rgbToHex_wellFormed (clamp255_le _) (clamp255_le _) (clamp255_le _)
    · exact rgbToHex_wellFormed h1 h2 h3

/-- C3 (witness for the amended claim). -/
theorem hex_shape_amended_witness :
    (74 ≤ 255 ∧ 85 ≤ 255 ∧ 104 ≤ 255)
    ∧ (isWellFormedHex (rgbToHex 74 85 104) = true
      ∧ (hexToRgb "#4a5568" = none → (createFallbackColor "#4a5568").hex = "#6b7280")
      ∧ (∀ p, hexToRgb "#4a5568" = some p → (createFallbackColor "#4a5568").hex = "#4a5568")
      ∧ isWellFormedHex "#6b7280" = true
      ∧ ((⟨1, (96, 0, 0), 0, 0⟩ : Candidate).rgb.1 ≤ 255 →
          (⟨1, (96, 0, 0), 0, 0⟩ : Candidate).rgb.2.1 ≤ 255 →
          (⟨1, (96, 0, 0), 0, 0⟩ : Candidate).rgb.2.2 ≤ 255 →
          isWellFormedHex (finishColor ⟨1, (96, 0, 0), 0, 0⟩ true).hex = true)) := by
  exact ⟨by omega,
    hex_shape_amended 74 85 104 (by omega) (by omega) (by omega) ⟨1, (96, 0, 0), 0, 0⟩
      true "#4a5568"⟩

/-! ## Claim C4 -/

/-- C4 (counterexample): a zero-dimension source (`naturalHeight = 0`)
with no configured fallback makes the extractor return the destructuring
default `#4a5568 = rgb(74,85,104)`, not the claimed hardcoded gray
`rgb(107,114,128)`. -/
theorem no_fallback_gray_counterexample :
    extractDominantColor (.image 5 0 true blackBuf) {} = createFallbackColor "#4a5568"
    ∧ (extractDominantColor (.image 5 0 true blackBuf) {}).rgb = (74, 85, 104)
    ∧ ((74, 85, 104) : ℕ × ℕ × ℕ) ≠ (107, 114, 128) := by
  exact ⟨rfl, rfl, by decide⟩

/-- C4 (amended): with no `fallbackColor` configured, faults in the video
entry point and in the core extractor produce the default
`#4a5568 = rgb(74,85,104)`; the hardcoded `rgb(107,114,128)` appears only
through the image entry point (whose `onload` options substitute
`#6b7280` as default fallback before extraction) and as ultimate fallback
for an unparseable fallback string; an image load failure with no
fallback configured rejects with an error instead. -/
theorem no_fallback_gray_amended (nw vw vh rs : ℕ) (buf : ℕ → ℕ → RGBA) (url : String)
    (options : ColorExtractionOptions) (hfb : options.fallbackColor = none) (hrs : rs < 2) :
    extractColorFromVideo vw vh rs buf options = createFallbackColor "#4a5568"
    ∧ extractDominantColor (.image nw 0 true buf) options = createFallbackColor "#4a5568"
    ∧ (createFallbackColor "#4a5568").rgb = (74, 85, 104)
    ∧ extractColorFromImageUrl url true (.image nw 0 true buf) options =
        .ok (createFallbackColor "#6b7280")
    ∧ (createFallbackColor "#6b7280").rgb = (107, 114, 128)
    ∧ (∀ junk, hexToRgb junk = none → (createFallbackColor junk).rgb = (107, 114, 128))
    ∧ extractColorFromImageUrl url false (.image nw 0 true buf) options =
        .error "Failed to load image for color extraction" := by
  refine ⟨?_, ?_, rfl, ?_, rfl, ?_, ?_⟩
  · rw [extractColorFromVideo]
    simp only [hfb, strTruthy, Bool.and_false, Bool.false_eq_true, if_false, jsOrStr]
    rw [if_pos hrs]
  · rw [extractDominantColor, if_pos (Or.inr rfl), hfb]
    rfl
  · rw [extractColorFromImageUrl]
    simp only [hfb, strTruthy, Bool.and_false, Bool.false_eq_true, if_false, if_true]
    rw [extractDominantColor, if_pos (Or.inr rfl)]
    simp [mergeImageOptions, hfb]
  · intro junk h
    simp [createFallbackColor, h]
  · rw [extractColorFromImageUrl]
    simp [hfb, strTruthy]

/-- C4 (witness for the amended claim). -/
theorem no_fallback_gray_amended_witness :
    ((ColorExtractionOptions.fallbackColor {}) = none ∧ 0 < 2)
    ∧ (extractColorFromVideo 9 16 0 blackBuf {} = createFallbackColor "#4a5568"
      ∧ extractDominantColor (.image 5 0 true blackBuf) {} = createFallbackColor "#4a5568"
      ∧ (createFallbackColor "#4a5568").rgb = (74, 85, 104)
      ∧ extractColorFromImageUrl "u" true (.image 5 0 true blackBuf) {} =
          .ok (createFallbackColor "#6b7280")
      ∧ (createFallbackColor "#6b7280").rgb = (107, 114, 128)
      ∧ (∀ junk, hexToRgb junk = none → (createFallbackColor junk).rgb = (107, 114, 128))
      ∧ extractColorFromImageUrl "u" false (.image 5 0 true blackBuf) {} =
          .error "Failed to load image for color extraction") := by
  exact ⟨⟨rfl, by omega⟩, no_fallback_gray_amended 5 9 16 0 blackBuf "u" {} rfl (by omega)⟩

/-! ## Claim C7 -/

/-- C7 (confirmed): with `useFallbackOnly` set and a (truthy) configured
fallback color, both entry points return the fallback immediately — the
result is `createFallbackColor` of the configured string for every
source, so the pixel source is never read — and for `#336699` the result
is `{hex: #336699, rgb: (51,102,153), luminance: getLuminance 51 102
153}`, the luminance recomputed from that rgb. -/
theorem useFallbackOnly_short_circuits (vw vh rs : ℕ) (buf : ℕ → ℕ → RGBA) (url : String)
    (loadOk : Bool) (img : PixelSource) (options : ColorExtractionOptions) (fb : String)
    (hu : options.useFallbackOnly = some true) (hf : options.fallbackColor = some fb)
    (hne : fb ≠ "") :
    extractColorFromVideo vw vh rs buf options = createFallbackColor fb
    ∧ extractColorFromImageUrl url loadOk img options = .ok (createFallbackColor fb)
    ∧ createFallbackColor "#336699" =
        ⟨"#336699", (51, 102, 153), getLuminance 51 102 153⟩ := by
  refine ⟨?_, ?_, rfl⟩
  · rw [extractColorFromVideo]
    simp [hu, hf, boolTruthy, strTruthy, hne]
  · rw [extractColorFromImageUrl]
    simp [hu, hf, boolTruthy, strTruthy, hne]

/-- C7 (witness). -/
theorem useFallbackOnly_short_circuits_witness :
    ((ColorExtractionOptions.useFallbackOnly
        { useFallbackOnly := some true, fallbackColor := some "#336699" }) = some true
      ∧ (ColorExtractionOptions.fallbackColor
        { useFallbackOnly := some true, fallbackColor := some "#336699" }) = some "#336699"
      ∧ "#336699" ≠ "")
    ∧ (extractColorFromVideo 9 16 4 blackBuf
          { useFallbackOnly := some true, fallbackColor := some "#336699" } =
        createFallbackColor "#336699"
      ∧ extractColorFromImageUrl "u" true (.image 5 5 true blackBuf)
          { useFallbackOnly := some true, fallbackColor := some "#336699" } =
        .ok (createFallbackColor "#336699")
      ∧ createFallbackColor "#336699" =
          ⟨"#336699", (51, 102, 153), getLuminance 51 102 153⟩) := by
  exact ⟨⟨rfl, rfl, by decide⟩,
    useFallbackOnly_short_circuits 9 16 4 blackBuf "u" true (.image 5 5 true blackBuf)
      { useFallbackOnly := some true, fallbackColor := some "#336699" } "#336699" rfl rfl
      (by decide)⟩

/-- `extractDominantColor` never reads `useFallbackOnly`: two option
records agreeing on every other field produce the same result. -/
theorem extractDominantColor_ignores_ufo (el : PixelSource)
    (o₁ o₂ : ColorExtractionOptions)
    (h1 : o₁.sampleSize = o₂.sampleSize)
    (h2 : o₁.fallbackColor = o₂.fallbackColor)
    (h3 : o₁.sampleLowerThird = o₂.sampleLowerThird)
    (h4 : o₁.analyzePortraitVideo = o₂.analyzePortraitVideo)
    (h5 : o₁.handleSplitView = o₂.handleSplitView)
    (h6 : o₁.ignoreBlackBackground = o₂.ignoreBlackBackground)
    (h7 : o₁.enableContrastBoost = o₂.enableContrastBoost)
    (h8 : o₁.minSaturation = o₂.minSaturation)
    (h9 : o₁.maxSaturation = o₂.maxSaturation)
    (h10 : o₁.minLuminance = o₂.minLuminance)
    (h11 : o₁.maxLuminance = o₂.maxLuminance)
    (h12 : o₁.maxDarkness = o₂.maxDarkness) :
    extractDominantColor el o₁ = extractDominantColor el o₂ := by
  obtain ⟨a1, a2, a3, a4, a5, a6, a7, a8, a9, a10, a11, a12, a13⟩ := o₁
  obtain ⟨b1, b2, b3, b4, b5, b6, b7, b8, b9, b10, b11, b12, b13⟩ := o₂
  simp only at h1 h2 h3 h4 h5 h6 h7 h8 h9 h10 h11 h12
  subst h1 h2 h3 h4 h5 h6 h7 h8 h9 h10 h11 h12
  cases el <;> rfl

/-! ## Claim C10 -/

/-- C10 (confirmed): with `useFallbackOnly` set but no `fallbackColor`
configured, the short-circuit guard `useFallbackOnly && fallbackColor` is
falsy, so both entry points behave exactly as if `useFallbackOnly` were
false. -/
theorem useFallbackOnly_needs_fallback (vw vh rs : ℕ) (buf : ℕ → ℕ → RGBA) (url : String)
    (loadOk : Bool) (img : PixelSource) (options : ColorExtractionOptions)
    (hfb : options.fallbackColor = none) :
    extractColorFromVideo vw vh rs buf { options with useFallbackOnly := some true } =
      extractColorFromVideo vw vh rs buf { options with useFallbackOnly := some false }
    ∧ extractColorFromImageUrl url loadOk img { options with useFallbackOnly := some true } =
      extractColorFromImageUrl url loadOk img { options with useFallbackOnly := some false } := by
  constructor
  · rw [extractColorFromVideo, extractColorFromVideo]
    simp only [hfb, strTruthy, Bool.and_false, Bool.false_eq_true, if_false]
    by_cases h2 : rs < 2
    · rw [if_pos h2, if_pos h2]
    · rw [if_neg h2, if_neg h2]
      exact extractDominantColor_ignores_ufo _ _ _ rfl rfl rfl rfl rfl rfl rfl rfl rfl rfl
        rfl rfl
  · rw [extractColorFromImageUrl, extractColorFromImageUrl]
    simp only [hfb, strTruthy, Bool.and_false, Bool.false_eq_true, if_false]
    cases loadOk
    · rfl
    · simp only [if_true]
      exact congrArg Except.ok (extractDominantColor_ignores_ufo _ _ _ rfl rfl rfl rfl rfl
        rfl rfl rfl rfl rfl rfl rfl)

/-- C10 (witness). -/
theorem useFallbackOnly_needs_fallback_witness :
    (ColorExtractionOptions.fallbackColor {} = none)
    ∧ (extractColorFromVideo 9 16 4 blackBuf { useFallbackOnly := some true } =
        extractColorFromVideo 9 16 4 blackBuf { useFallbackOnly := some false }
      ∧ extractColorFromImageUrl "u" true (.image 5 5 true blackBuf)
          { useFallbackOnly := some true } =
        extractColorFromImageUrl "u" true (.image 5 5 true blackBuf)
          { useFallbackOnly := some false }) := by
  exact ⟨rfl, useFallbackOnly_needs_fallback 9 16 4 blackBuf "u" true
    (.image 5 5 true blackBuf) {} rfl⟩

/-! ## Claim C9 -/

theorem runPipeline_of_empty (pixels : List RGBA) (options : ColorExtractionOptions)
    (hib : options.ignoreBlackBackground.getD true = true)
    (hempty : analyzeImageData pixels true = []) :
    runPipeline pixels options = createFallbackColor (options.fallbackColor.getD "#4a5568") := by
  rw [runPipeline, hib, hempty]
  rfl

theorem extractFromSplitView_of_empty (buf : ℕ → ℕ → RGBA) (s : ℕ)
    (options : ColorExtractionOptions)
    (hib : options.ignoreBlackBackground.getD true = true)
    (hempty : ∀ ox oy w h, analyzeImageData (getImageData buf ox oy w h) true = []) :
    extractFromSplitView buf s options =
      createFallbackColor (options.fallbackColor.getD "#4a5568") := by
  rw [extractFromSplitView, hib, hempty, hempty]
  rfl

/-- C9 (confirmed): a buffer whose samples are all near-black (every
channel below 30), analyzed with `ignoreBlackBackground` on, yields an
empty frequency table in every region, so all three selection tiers find
nothing and the extractor returns the configured fallback color. -/
theorem black_buffer_yields_fallback (element : PixelSource)
    (options : ColorExtractionOptions)
    (hib : options.ignoreBlackBackground.getD true = true)
    (hblack : ∀ x y, (canvasOf element x y).r < 30 ∧ (canvasOf element x y).g < 30 ∧
      (canvasOf element x y).b < 30) :
    (∀ ox oy w h, analyzeImageData (getImageData (canvasOf element) ox oy w h) true = [])
    ∧ extractDominantColor element options =
        createFallbackColor (options.fallbackColor.getD "#4a5568") := by
  have hA : ∀ ox oy w h,
      analyzeImageData (getImageData (canvasOf element) ox oy w h) true = [] := by
    intro ox oy w h
    refine analyzeImageData_black _ ?_
    intro p hp
    obtain ⟨x, y, rfl⟩ := getImageData_mem hp
    exact hblack x y
  refine ⟨hA, ?_⟩
  have hMain : extractMain element options =
      createFallbackColor (options.fallbackColor.getD "#4a5568") := by
    cases hplan : samplingPlanOf element options with
    | single ox oy w h =>
      rw [extractMain, hplan]
      exact runPipeline_of_empty _ _ hib (hA ox oy w h)
    | split =>
      rw [extractMain, hplan]
      exact extractFromSplitView_of_empty _ _ _ hib hA
  cases element with
  | video vw vh rs buf => exact hMain
  | canvasElem buf => exact hMain
  | image nw nh complete buf =>
    rw [extractDominantColor]
    split
    · rfl
    · exact hMain

/-- C9 (witness): the all-black opaque buffer through a video source with
default options returns the default fallback `#4a5568`. -/
theorem black_buffer_yields_fallback_witness :
    ((ColorExtractionOptions.ignoreBlackBackground {}).getD true = true
      ∧ ∀ x y : ℕ, (canvasOf (.video 1 1 2 blackBuf) x y).r < 30
        ∧ (canvasOf (.video 1 1 2 blackBuf) x y).g < 30
        ∧ (canvasOf (.video 1 1 2 blackBuf) x y).b < 30)
    ∧ ((∀ ox oy w h, analyzeImageData (getImageData (canvasOf (.video 1 1 2 blackBuf)) ox oy w h)
          true = [])
      ∧ extractDominantColor (.video 1 1 2 blackBuf) {} =
        createFallbackColor ((ColorExtractionOptions.fallbackColor {}).getD "#4a5568")) := by
  have hb : ∀ x y : ℕ, (canvasOf (.video 1 1 2 blackBuf) x y).r < 30
      ∧ (canvasOf (.video 1 1 2 blackBuf) x y).g < 30
      ∧ (canvasOf (.video 1 1 2 blackBuf) x y).b < 30 := by
    intro x y
    refine ⟨?_, ?_, ?_⟩ <;> simp [canvasOf, blackBuf]
  exact ⟨⟨rfl, hb⟩, black_buffer_yields_fallback (.video 1 1 2 blackBuf) {} rfl hb⟩

/-! ## Claim C2 -/

/-- The analysis-fold property lemma without channel bounds. -/
theorem analyze_fold_prop_all (P : Candidate → Prop)
    (hinc : ∀ c, P c → P { c with count := c.count + 1 })
    (hnew : ∀ r g b : ℕ,
      P ⟨1, (quantize24 r, quantize24 g, quantize24 b),
        getLuminance (quantize24 r) (quantize24 g) (quantize24 b),
        calculateSaturation (quantize24 r) (quantize24 g) (quantize24 b)⟩)
    (ib : Bool) (l : List RGBA) (acc : List Candidate) (hacc : ∀ c ∈ acc, P c) :
    ∀ c ∈ l.foldl (addPixel ib) acc, P c := by
  induction l generalizing acc with
  | nil => simpa using hacc
  | cons p tl ih =>
    simp only [List.foldl_cons]
    refine ih _ ?_
    intro c hc
    rw [addPixel] at hc
    split at hc
    · exact hacc c hc
    · split at hc
      · exact hacc c hc
      · split at hc
        · rcases List.mem_map.mp hc with ⟨c₀, hc₀, hcc⟩
          subst hcc
          split
          · exact hinc c₀ (hacc c₀ hc₀)
          · exact hacc c₀ hc₀
        · rcases List.mem_append.mp hc with h | h
          · exact hacc c h
          · simp only [List.mem_singleton] at h
            subst h
            exact hnew p.r p.g p.b

/-- Every frequency-table entry stores the luminance of its own rgb. -/
theorem analyzeImageData_lum (pixels : List RGBA) (ib : Bool) :
    ∀ c ∈ analyzeImageData pixels ib,
      c.luminance = getLuminance c.rgb.1 c.rgb.2.1 c.rgb.2.2 := by
  rw [analyzeImageData]
  refine analyze_fold_prop_all _ (fun c hc => hc) ?_ ib _ [] (by simp)
  intro r g b
  rfl

theorem createFallbackColor_consistent {s : String} (h : hexToRgb s ≠ none) :
    lumConsistent (createFallbackColor s) := by
  cases hp : hexToRgb s with
  | none => exact absurd hp h
  | some p =>
    rcases p with ⟨r, g, b⟩
    rw [lumConsistent, createFallbackColor, hp]

theorem finishColor_consistent (c : Candidate) (e : Bool) : lumConsistent (finishColor c e) :=
  rfl

theorem extractFromSplitView_consistent (buf : ℕ → ℕ → RGBA) (s : ℕ)
    (options : ColorExtractionOptions)
    (hfb : hexToRgb (options.fallbackColor.getD "#4a5568") ≠ none) :
    lumConsistent (extractFromSplitView buf s options) := by
  rw [extractFromSplitView]
  cases hl : findOptimalColor
      (analyzeImageData
        (getImageData buf 0 (s * 67 / 100) (s / 2) (s - s * 67 / 100))
        (options.ignoreBlackBackground.getD true))
      (options.minLuminance.getD 0.2) (options.maxLuminance.getD 0.85)
      (options.enableContrastBoost.getD true) with
  | none =>
    cases hr : findOptimalColor
        (analyzeImageData
          (getImageData buf (s / 2) (s * 67 / 100) (s / 2) (s - s * 67 / 100))
          (options.ignoreBlackBackground.getD true))
        (options.minLuminance.getD 0.2) (options.maxLuminance.getD 0.85)
        (options.enableContrastBoost.getD true) with
    | none => exact createFallbackColor_consistent hfb
    | some rB =>
      have hmem := (findOptimalColor_mem hr).1
      exact analyzeImageData_lum _ _ rB hmem
  | some lB =>
    cases hr : findOptimalColor
        (analyzeImageData
          (getImageData buf (s / 2) (s * 67 / 100) (s / 2) (s - s * 67 / 100))
          (options.ignoreBlackBackground.getD true))
        (options.minLuminance.getD 0.2) (options.maxLuminance.getD 0.85)
        (options.enableContrastBoost.getD true) with
    | none =>
      have hmem := (findOptimalColor_mem hl).1
      exact analyzeImageData_lum _ _ lB hmem
    | some rB =>
      have hmeml := (findOptimalColor_mem hl).1
      have hmemr := (findOptimalColor_mem hr).1
      rw [lumConsistent]
      dsimp only
      split
      · exact analyzeImageData_lum _ _ lB hmeml
      · exact analyzeImageData_lum _ _ rB hmemr

/-- C2 (amended): for every extraction call whose effective fallback
string parses (in particular every call made with the in-code defaults),
the returned `luminance` equals `getLuminance` of the returned `rgb`,
on the main path, the split-view path and the fallback paths alike; the
invariant fails only in the ultimate-fallback result for an unparseable
fallback string, which hardcodes luminance `0.4` for `rgb(107,114,128)`. -/
theorem runPipeline_consistent (pixels : List RGBA) (options : ColorExtractionOptions)
    (hfb : hexToRgb (options.fallbackColor.getD "#4a5568") ≠ none) :
    lumConsistent (runPipeline pixels options) := by
  rw [runPipeline]
  cases hsel : selectColor
      (analyzeImageData pixels (options.ignoreBlackBackground.getD true))
      (options.minLuminance.getD 0.2) (options.maxLuminance.getD 0.85)
      (options.enableContrastBoost.getD true) with
  | none => exact createFallbackColor_consistent hfb
  | some best => exact finishColor_consistent best _

theorem luminance_consistent_amended (element : PixelSource)
    (options : ColorExtractionOptions)
    (hfb : hexToRgb (options.fallbackColor.getD "#4a5568") ≠ none) :
    lumConsistent (extractDominantColor element options) := by
  have hMain : lumConsistent (extractMain element options) := by
    cases hplan : samplingPlanOf element options with
    | single ox oy w h =>
      rw [extractMain, hplan]
      exact runPipeline_consistent _ _ hfb
    | split =>
      rw [extractMain, hplan]
      exact extractFromSplitView_consistent _ _ _ hfb
  cases element with
  | video vw vh rs buf => exact hMain
  | canvasElem buf => exact hMain
  | image nw nh complete buf =>
    rw [extractDominantColor]
    split
    · exact createFallbackColor_consistent hfb
    · exact hMain

/-- C2 (witness for the amended claim): an unloaded image with default
options falls back to `#4a5568`, whose luminance is recomputed. -/
theorem luminance_consistent_amended_witness :
    hexToRgb ((ColorExtractionOptions.fallbackColor {}).getD "#4a5568") ≠ none
    ∧ lumConsistent (extractDominantColor (.image 1 1 false blackBuf) {}) := by
  exact ⟨by decide, luminance_consistent_amended (.image 1 1 false blackBuf) {} (by decide)⟩

/-- C2 (counterexample): with an unparseable configured fallback string,
a not-ready video extraction returns the hardcoded
`{hex: #6b7280, rgb: (107,114,128), luminance: 0.4}`, and `0.4` is NOT
`getLuminance 107 114 128` (which is below `0.4`): the luminance field of
this result is a hardcoded value differing from recomputation. -/
theorem luminance_consistency_counterexample :
    (extractColorFromVideo 1 1 0 blackBuf { fallbackColor := some "not-a-color" }).luminance
        = 0.4
    ∧ (extractColorFromVideo 1 1 0 blackBuf { fallbackColor := some "not-a-color" }).rgb
        = (107, 114, 128)
    ∧ getLuminance 107 114 128 ≠ 0.4 := by
  exact ⟨rfl, rfl, ne_of_lt lum_gray_lt⟩

/-! ## Claim C6 -/

theorem selectColor_eq_t1 {m : List Candidate} {lo hi : ℝ} {e : Bool} {c : Candidate}
    (h : findOptimalColor m lo hi e = some c) : selectColor m lo hi e = some c := by
  unfold selectColor
  rw [h]

theorem selectColor_eq_t2 {m : List Candidate} {lo hi : ℝ} {e : Bool} {c : Candidate}
    (h1 : findOptimalColor m lo hi e = none) (h2 : findOptimalColor m 0.1 0.9 e = some c) :
    selectColor m lo hi e = some c := by
  unfold selectColor
  rw [h1, h2]

theorem selectColor_eq_t3 {m : List Candidate} {lo hi : ℝ} {e : Bool}
    (h1 : findOptimalColor m lo hi e = none) (h2 : findOptimalColor m 0.1 0.9 e = none) :
    selectColor m lo hi e = mostFrequent m := by
  unfold selectColor
  rw [h1, h2]

/-- C6 (confirmed): on a non-empty frequency table (whose entries, as
built by the analyzer, have positive counts, nonnegative saturation and
luminance in `[0,1]`), selection proceeds in three strictly relaxing
tiers: a maximal-score candidate within `[minLuminance, maxLuminance]`
under `score = (0.4 min(count/10,1) + 0.3 min(1.5 sat,1) +
0.3 (1 - |lum - 0.5|)) * bonus` with `bonus = 1.2` iff `lum > 0.25`; if
no candidate lies in bounds, the same scoring over the fixed bounds
`[0.1, 0.9]`; if still none, a candidate of maximal count. -/
theorem three_tier_selection (m : List Candidate) (lo hi : ℝ) (e : Bool)
    (hne : m ≠ [])
    (hwf : ∀ c ∈ m, 1 ≤ c.count ∧ 0 ≤ c.saturation ∧ 0 ≤ c.luminance ∧ c.luminance ≤ 1) :
    ((∃ c ∈ m, lo ≤ c.luminance ∧ c.luminance ≤ hi) →
      ∃ c, selectColor m lo hi e = some c ∧ c ∈ m ∧ lo ≤ c.luminance ∧ c.luminance ≤ hi ∧
        ∀ cc ∈ m, lo ≤ cc.luminance → cc.luminance ≤ hi → score cc ≤ score c)
    ∧ ((∀ c ∈ m, ¬(lo ≤ c.luminance ∧ c.luminance ≤ hi)) →
      (∃ c ∈ m, (0.1 : ℝ) ≤ c.luminance ∧ c.luminance ≤ 0.9) →
      ∃ c, selectColor m lo hi e = some c ∧ c ∈ m ∧ (0.1 : ℝ) ≤ c.luminance ∧
        c.luminance ≤ 0.9 ∧
        ∀ cc ∈ m, (0.1 : ℝ) ≤ cc.luminance → cc.luminance ≤ 0.9 → score cc ≤ score c)
    ∧ ((∀ c ∈ m, ¬(lo ≤ c.luminance ∧ c.luminance ≤ hi)) →
      (∀ c ∈ m, ¬((0.1 : ℝ) ≤ c.luminance ∧ c.luminance ≤ 0.9)) →
      ∃ c, selectColor m lo hi e = some c ∧ c ∈ m ∧ ∀ cc ∈ m, cc.count ≤ c.count) := by
  have hpos : ∀ (a b : ℝ), ∀ c ∈ m, inBounds a b c → 0 < score c := by
    intro a b c hc _
    obtain ⟨h1, h2, h3, h4⟩ := hwf c hc
    exact score_pos h1 h2 h3 h4
  refine ⟨?_, ?_, ?_⟩
  · intro hex
    obtain ⟨c, hfo, hmem, hin, hmax⟩ := findOptimalColor_max (e := e) (hpos lo hi)
      (by obtain ⟨c, hc, h⟩ := hex; exact ⟨c, hc, h⟩)
    exact ⟨c, selectColor_eq_t1 hfo, hmem, hin.1, hin.2,
      fun cc hcc hl hh => hmax cc hcc ⟨hl, hh⟩⟩
  · intro hnone hex
    have h1 : findOptimalColor m lo hi e = none :=
      findOptimalColor_none fun c hc hin => hnone c hc ⟨hin.1, hin.2⟩
    obtain ⟨c, hfo, hmem, hin, hmax⟩ := findOptimalColor_max (e := e) (hpos 0.1 0.9)
      (by obtain ⟨c, hc, h⟩ := hex; exact ⟨c, hc, h⟩)
    exact ⟨c, selectColor_eq_t2 h1 hfo, hmem, hin.1, hin.2,
      fun cc hcc hl hh => hmax cc hcc ⟨hl, hh⟩⟩
  · intro hnone1 hnone2
    have h1 : findOptimalColor m lo hi e = none :=
      findOptimalColor_none fun c hc hin => hnone1 c hc ⟨hin.1, hin.2⟩
    have h2 : findOptimalColor m 0.1 0.9 e = none :=
      findOptimalColor_none fun c hc hin => hnone2 c hc ⟨hin.1, hin.2⟩
    obtain ⟨c, hmf, hmem, hmax⟩ := mostFrequent_max hne (fun c hc => (hwf c hc).1)
    exact ⟨c, (selectColor_eq_t3 h1 h2).trans hmf, hmem, hmax⟩

/-- C6 (witness): a two-entry table where the mid-luminance entry is in
bounds and maximizes the score in tier one. -/
theorem three_tier_selection_witness :
    (([⟨3, (96, 96, 96), 1/2, 0⟩, ⟨1, (0, 0, 24), 1/100, 1/2⟩] : List Candidate) ≠ []
      ∧ ∀ c ∈ ([⟨3, (96, 96, 96), 1/2, 0⟩, ⟨1, (0, 0, 24), 1/100, 1/2⟩] : List Candidate),
          1 ≤ c.count ∧ 0 ≤ c.saturation ∧ 0 ≤ c.luminance ∧ c.luminance ≤ 1)
    ∧ ((∃ c ∈ ([⟨3, (96, 96, 96), 1/2, 0⟩, ⟨1, (0, 0, 24), 1/100, 1/2⟩] : List Candidate),
          (0.2 : ℝ) ≤ c.luminance ∧ c.luminance ≤ 0.85) →
      ∃ c, selectColor [⟨3, (96, 96, 96), 1/2, 0⟩, ⟨1, (0, 0, 24), 1/100, 1/2⟩]
            (0.2 : ℝ) (0.85 : ℝ) true = some c ∧
        c ∈ ([⟨3, (96, 96, 96), 1/2, 0⟩, ⟨1, (0, 0, 24), 1/100, 1/2⟩] : List Candidate) ∧
        (0.2 : ℝ) ≤ c.luminance ∧ c.luminance ≤ 0.85 ∧
        ∀ cc ∈ ([⟨3, (96, 96, 96), 1/2, 0⟩, ⟨1, (0, 0, 24), 1/100, 1/2⟩] : List Candidate),
          (0.2 : ℝ) ≤ cc.luminance → cc.luminance ≤ 0.85 → score cc ≤ score c) := by
  have hwf : ∀ c ∈ ([⟨3, (96, 96, 96), 1/2, 0⟩, ⟨1, (0, 0, 24), 1/100, 1/2⟩] : List Candidate),
      1 ≤ c.count ∧ 0 ≤ c.saturation ∧ 0 ≤ c.luminance ∧ c.luminance ≤ 1 := by
    intro c hc
    rcases List.mem_cons.mp hc with h | h
    · subst h
      refine ⟨by norm_num, by norm_num, by norm_num, by norm_num⟩
    · simp only [List.mem_singleton] at h
      subst h
      refine ⟨by norm_num, by norm_num, by norm_num, by norm_num⟩
  exact ⟨⟨by simp, hwf⟩,
    (three_tier_selection [⟨3, (96, 96, 96), 1/2, 0⟩, ⟨1, (0, 0, 24), 1/100, 1/2⟩]
      0.2 0.85 true (by simp) hwf).1⟩

/-! ## Claim C5 -/

theorem findOptimalColor_singleton {c : Candidate} {lo hi : ℝ} {e : Bool}
    (h1 : ¬(c.luminance < lo ∨ c.luminance > hi)) (h2 : 0 < score c) :
    findOptimalColor [c] lo hi e = some c := by
  rw [findOptimalColor]
  simp only [List.foldl_cons, List.foldl_nil]
  rw [if_neg h1, if_pos h2]

/-- C5 (counterexample): a split-view extraction (3:1 image, uniform dark
red `rgb(100,0,0)`, `enableContrastBoost` on, `minLuminance` lowered to 0
so the dark candidate wins) returns the winner's rgb `(96,0,0)` as is,
although its luminance is below `0.3` — the split-view path never applies
`boostColorBrightness`, whose result here would be `(204,0,0)`. -/
theorem split_view_no_boost_counterexample :
    extractDominantColor (.image 30 10 true redBuf)
        { sampleSize := some 6, minLuminance := some 0, enableContrastBoost := some true } =
      ⟨"#600000", (96, 0, 0), getLuminance 96 0 0⟩
    ∧ getLuminance 96 0 0 < 0.3
    ∧ boostColorBrightness 96 0 0 (2/5) = (204, 0, 0)
    ∧ ((96, 0, 0) : ℕ × ℕ × ℕ) ≠ (204, 0, 0) := by
  have hL0 : 0 ≤ getLuminance 96 0 0 := getLuminance_nonneg _ _ _
  have hL1 : getLuminance 96 0 0 ≤ 1 :=
    getLuminance_le_one (by norm_num) (by norm_num) (by norm_num)
  have hcond : ¬(darkRedEntry.luminance < (0 : ℝ) ∨ darkRedEntry.luminance > 0.85) := by
    rw [not_or]
    refine ⟨not_lt.mpr hL0, not_lt.mpr ?_⟩
    have := lum_dark_red_lt
    rw [darkRedEntry]
    dsimp only
    linarith
  have hscore : 0 < score darkRedEntry :=
    score_pos (by norm_num [darkRedEntry]) (calculateSaturation_nonneg _ _ _) hL0 hL1
  have hfo : findOptimalColor [darkRedEntry] 0 0.85 true = some darkRedEntry :=
    findOptimalColor_singleton hcond hscore
  have hstep : extractDominantColor (.image 30 10 true redBuf)
      { sampleSize := some 6, minLuminance := some 0, enableContrastBoost := some true } =
      extractFromSplitView redBuf 6
        { sampleSize := some 6, minLuminance := some 0, enableContrastBoost := some true } :=
    rfl
  refine ⟨?_, lt_trans lum_dark_red_lt (by norm_num), ?_, by decide⟩
  · rw [hstep, extractFromSplitView]
    have e1 : findOptimalColor
        (analyzeImageData (getImageData redBuf 0 (6 * 67 / 100) (6 / 2) (6 - 6 * 67 / 100))
          ((ColorExtractionOptions.ignoreBlackBackground
            { sampleSize := some 6, minLuminance := some 0,
              enableContrastBoost := some true }).getD true))
        ((ColorExtractionOptions.minLuminance
          { sampleSize := some 6, minLuminance := some 0,
            enableContrastBoost := some true }).getD 0.2)
        ((ColorExtractionOptions.maxLuminance
          { sampleSize := some 6, minLuminance := some 0,
            enableContrastBoost := some true }).getD 0.85)
        ((ColorExtractionOptions.enableContrastBoost
          { sampleSize := some 6, minLuminance := some 0,
            enableContrastBoost := some true }).getD true) = some darkRedEntry := hfo
    have e2 : findOptimalColor
        (analyzeImageData
          (getImageData redBuf (6 / 2) (6 * 67 / 100) (6 / 2) (6 - 6 * 67 / 100))
          ((ColorExtractionOptions.ignoreBlackBackground
            { sampleSize := some 6, minLuminance := some 0,
              enableContrastBoost := some true }).getD true))
        ((ColorExtractionOptions.minLuminance
          { sampleSize := some 6, minLuminance := some 0,
            enableContrastBoost := some true }).getD 0.2)
        ((ColorExtractionOptions.maxLuminance
          { sampleSize := some 6, minLuminance := some 0,
            enableContrastBoost := some true }).getD 0.85)
        ((ColorExtractionOptions.enableContrastBoost
          { sampleSize := some 6, minLuminance := some 0,
            enableContrastBoost := some true }).getD true) = some darkRedEntry := hfo
    rw [e1, e2]
    simp only [gt_iff_lt, lt_irrefl, if_false]
    rfl
  · norm_num [boostColorBrightness, rgbToHsl, hslToRgb, hue2rgb, jsRound, clamp255]
    decide

/-- C5 (amended): on the MAIN selection path the claim holds: when
`enableContrastBoost` is on and the chosen candidate's luminance is below
`0.3`, the returned rgb is the candidate's rgb converted to HSL, its
lightness raised to at least `0.4` and never lowered, converted back to
RGB with each channel clamped to `[0,255]`; the split-view dual-region
path, however, returns the winner's rgb without this boost. -/
theorem contrast_boost_amended (c : Candidate) (hlum : c.luminance < 0.3) :
    (finishColor c true).rgb = boostColorBrightness c.rgb.1 c.rgb.2.1 c.rgb.2.2 (2/5)
    ∧ boostColorBrightness c.rgb.1 c.rgb.2.1 c.rgb.2.2 (2/5) =
      (clamp255 (hslToRgb (rgbToHsl c.rgb.1 c.rgb.2.1 c.rgb.2.2).1
          (rgbToHsl c.rgb.1 c.rgb.2.1 c.rgb.2.2).2.1
          (max (rgbToHsl c.rgb.1 c.rgb.2.1 c.rgb.2.2).2.2 (2/5))).1,
        clamp255 (hslToRgb (rgbToHsl c.rgb.1 c.rgb.2.1 c.rgb.2.2).1
          (rgbToHsl c.rgb.1 c.rgb.2.1 c.rgb.2.2).2.1
          (max (rgbToHsl c.rgb.1 c.rgb.2.1 c.rgb.2.2).2.2 (2/5))).2.1,
        clamp255 (hslToRgb (rgbToHsl c.rgb.1 c.rgb.2.1 c.rgb.2.2).1
          (rgbToHsl c.rgb.1 c.rgb.2.1 c.rgb.2.2).2.1
          (max (rgbToHsl c.rgb.1 c.rgb.2.1 c.rgb.2.2).2.2 (2/5))).2.2)
    ∧ (2/5 : ℚ) ≤ max (rgbToHsl c.rgb.1 c.rgb.2.1 c.rgb.2.2).2.2 (2/5)
    ∧ (rgbToHsl c.rgb.1 c.rgb.2.1 c.rgb.2.2).2.2 ≤
        max (rgbToHsl c.rgb.1 c.rgb.2.1 c.rgb.2.2).2.2 (2/5)
    ∧ (∀ z : ℤ, clamp255 z ≤ 255) := by
  refine ⟨?_, rfl, le_max_right _ _, le_max_left _ _, clamp255_le⟩
  rw [finishColor, if_pos ⟨rfl, hlum⟩]

/-- C5 (witness for the amended claim). -/
theorem contrast_boost_amended_witness :
    ((⟨2, (96, 0, 0), (1 : ℝ) / 10, 1⟩ : Candidate).luminance < 0.3)
    ∧ (finishColor ⟨2, (96, 0, 0), (1 : ℝ) / 10, 1⟩ true).rgb =
        boostColorBrightness 96 0 0 (2/5)
    ∧ (finishColor ⟨2, (96, 0, 0), (1 : ℝ) / 10, 1⟩ true).rgb = (204, 0, 0) := by
  have hlt : ((⟨2, (96, 0, 0), (1 : ℝ) / 10, 1⟩ : Candidate).luminance < 0.3) := by norm_num
  have h := contrast_boost_amended ⟨2, (96, 0, 0), (1 : ℝ) / 10, 1⟩ hlt
  refine ⟨hlt, h.1, ?_⟩
  rw [h.1]
  norm_num [boostColorBrightness, rgbToHsl, hslToRgb, hue2rgb, jsRound, clamp255]
  decide

/-! ## Claim C8: support lemmas on hue2rgb and rounding -/

theorem hue2rgb_seg1 {p q t : ℚ} (h0 : 0 ≤ t) (h1 : t < 1/6) :
    hue2rgb p q t = p + (q - p) * 6 * t := by
  rw [hue2rgb]
  rw [if_neg (not_lt.mpr h0)]
  rw [if_neg (show ¬ t > 1 by intro h; linarith)]
  rw [if_pos h1]

theorem hue2rgb_seg2 {p q t : ℚ} (h0 : 1/6 ≤ t) (h1 : t < 1/2) : hue2rgb p q t = q := by
  rw [hue2rgb]
  rw [if_neg (show ¬ t < 0 by intro h; linarith)]
  rw [if_neg (show ¬ t > 1 by intro h; linarith)]
  rw [if_neg (not_lt.mpr h0)]
  rw [if_pos h1]

theorem hue2rgb_seg3 {p q t : ℚ} (h0 : 1/2 ≤ t) (h1 : t < 2/3) :
    hue2rgb p q t = p + (q - p) * (2/3 - t) * 6 := by
  rw [hue2rgb]
  rw [if_neg (show ¬ t < 0 by intro h; linarith)]
  rw [if_neg (show ¬ t > 1 by intro h; linarith)]
  rw [if_neg (show ¬ t < 1/6 by intro h; linarith)]
  rw [if_neg (not_lt.mpr h0)]
  rw [if_pos h1]

theorem hue2rgb_seg4 {p q t : ℚ} (h0 : 2/3 ≤ t) (h1 : t ≤ 1) : hue2rgb p q t = p := by
  rw [hue2rgb]
  rw [if_neg (show ¬ t < 0 by intro h; linarith)]
  rw [if_neg (show ¬ t > 1 by intro h; linarith)]
  rw [if_neg (show ¬ t < 1/6 by intro h; linarith)]
  rw [if_neg (show ¬ t < 1/2 by intro h; linarith)]
  rw [if_neg (not_lt.mpr h0)]

theorem hue2rgb_wrap_neg {p q t : ℚ} (h0 : -1 ≤ t) (h1 : t < 0) :
    hue2rgb p q t = hue2rgb p q (t + 1) := by
  rw [hue2rgb, hue2rgb]
  rw [if_pos h1]
  rw [if_neg (show ¬ t + 1 > 1 by intro h; linarith)]
  rw [if_neg (show ¬ t + 1 < 0 by intro h; linarith)]
  rw [if_neg (show ¬ t + 1 > 1 by intro h; linarith)]

theorem hue2rgb_wrap_pos {p q t : ℚ} (h0 : 1 < t) (h1 : t ≤ 2) :
    hue2rgb p q t = hue2rgb p q (t - 1) := by
  rw [hue2rgb, hue2rgb]
  rw [if_neg (show ¬ t < 0 by intro h; linarith)]
  rw [if_pos (show t > 1 from h0)]
  rw [if_neg (show ¬ t - 1 < 0 by intro h; linarith)]
  rw [if_neg (show ¬ t - 1 > 1 by intro h; linarith)]

theorem jsRound_natCast (n : ℕ) : jsRound ((n : ℚ)) = (n : ℤ) := by
  rw [jsRound]
  rw [Int.floor_eq_iff]
  constructor
  · push_cast
    linarith
  · push_cast
    linarith

theorem jsRound_div_mul (n : ℕ) : jsRound ((n : ℚ) / 255 * 255) = (n : ℤ) := by
  have h : ((n : ℚ) / 255 * 255) = (n : ℚ) := by field_simp
  rw [h, jsRound_natCast]

/-- Applied to an HSL triple produced by `rgbToHsl` with `mn < mx`,
`hslToRgb` recovers `q = mx` and `p = mn` and interpolates with
`hue2rgb`. -/
theorem hslToRgb_eval (mx mn h6 : ℚ) (h0 : 0 ≤ mn) (hlt : mn < mx) (h1 : mx ≤ 1) :
    hslToRgb (h6 / 6 * 360)
      (if (mx + mn) / 2 > 1/2 then (mx - mn) / (2 - mx - mn) else (mx - mn) / (mx + mn))
      ((mx + mn) / 2)
    = (jsRound (hue2rgb mn mx (h6 / 6 + 1/3) * 255),
       jsRound (hue2rgb mn mx (h6 / 6) * 255),
       jsRound (hue2rgb mn mx (h6 / 6 - 1/3) * 255)) := by
  have hsum : 0 < mx + mn := by linarith
  have hsub : 0 < 2 - mx - mn := by linarith
  have hdpos : 0 < mx - mn := by linarith
  have hs0 : (if (mx + mn) / 2 > 1/2 then (mx - mn) / (2 - mx - mn)
      else (mx - mn) / (mx + mn)) ≠ 0 := by
    split
    · exact ne_of_gt (div_pos hdpos hsub)
    · exact ne_of_gt (div_pos hdpos hsum)
  simp only [hslToRgb]
  rw [if_neg hs0]
  have hq : (if (mx + mn) / 2 < 1/2 then
        (mx + mn) / 2 * (1 +
          (if (mx + mn) / 2 > 1/2 then (mx - mn) / (2 - mx - mn) else (mx - mn) / (mx + mn)))
      else (mx + mn) / 2 +
          (if (mx + mn) / 2 > 1/2 then (mx - mn) / (2 - mx - mn) else (mx - mn) / (mx + mn))
        - (mx + mn) / 2 *
          (if (mx + mn) / 2 > 1/2 then (mx - mn) / (2 - mx - mn) else (mx - mn) / (mx + mn)))
      = mx := by
    rcases lt_trichotomy ((mx + mn) / 2) (1/2) with h | h | h
    · rw [if_pos h, if_neg (show ¬ (mx + mn) / 2 > 1/2 by intro hx; linarith)]
      field_simp
      ring
    · rw [if_neg (show ¬ (mx + mn) / 2 < 1/2 by intro hx; linarith),
        if_neg (show ¬ (mx + mn) / 2 > 1/2 by intro hx; linarith)]
      have hone : mx + mn = 1 := by linarith
      rw [hone]
      field_simp
      linarith
    · rw [if_neg (show ¬ (mx + mn) / 2 < 1/2 by intro hx; linarith),
        if_pos (show (mx + mn) / 2 > 1/2 from h)]
      field_simp
      ring
  rw [hq]
  have hp : 2 * ((mx + mn) / 2) - mx = mn := by ring
  rw [hp]
  have hh : h6 / 6 * 360 / 360 = h6 / 6 := by ring
  rw [hh]

theorem comp_q {mn mx t : ℚ} (n : ℕ) (hmx : mx = (n : ℚ) / 255)
    (h0 : 1/6 ≤ t) (h1 : t < 1/2) : jsRound (hue2rgb mn mx t * 255) = (n : ℤ) := by
  rw [hue2rgb_seg2 h0 h1, hmx]
  exact jsRound_div_mul n

theorem comp_p {mn mx t : ℚ} (n : ℕ) (hmn : mn = (n : ℚ) / 255)
    (h0 : 2/3 ≤ t) (h1 : t ≤ 1) : jsRound (hue2rgb mn mx t * 255) = (n : ℤ) := by
  rw [hue2rgb_seg4 h0 h1, hmn]
  exact jsRound_div_mul n

theorem comp_seg1 {mn mx t : ℚ} (n : ℕ) (h : mn + (mx - mn) * 6 * t = (n : ℚ) / 255)
    (h0 : 0 ≤ t) (h1 : t < 1/6) : jsRound (hue2rgb mn mx t * 255) = (n : ℤ) := by
  rw [hue2rgb_seg1 h0 h1, h]
  exact jsRound_div_mul n

theorem comp_seg3 {mn mx t : ℚ} (n : ℕ)
    (h : mn + (mx - mn) * (2/3 - t) * 6 = (n : ℚ) / 255)
    (h0 : 1/2 ≤ t) (h1 : t < 2/3) : jsRound (hue2rgb mn mx t * 255) = (n : ℤ) := by
  rw [hue2rgb_seg3 h0 h1, h]
  exact jsRound_div_mul n

theorem comp_wrapneg_p {mn mx t : ℚ} (n : ℕ) (hmn : mn = (n : ℚ) / 255)
    (hn1 : -1 ≤ t) (hn2 : t < 0) (h0 : 2/3 ≤ t + 1) (h1 : t + 1 ≤ 1) :
    jsRound (hue2rgb mn mx t * 255) = (n : ℤ) := by
  rw [hue2rgb_wrap_neg hn1 hn2]
  exact comp_p n hmn h0 h1

theorem comp_wrappos_q {mn mx t : ℚ} (n : ℕ) (hmx : mx = (n : ℚ) / 255)
    (hn1 : 1 < t) (hn2 : t ≤ 2) (h0 : 1/6 ≤ t - 1) (h1 : t - 1 < 1/2) :
    jsRound (hue2rgb mn mx t * 255) = (n : ℤ) := by
  rw [hue2rgb_wrap_pos hn1 hn2]
  exact comp_q n hmx h0 h1

theorem comp_wrappos_seg1 {mn mx t : ℚ} (n : ℕ)
    (h : mn + (mx - mn) * 6 * (t - 1) = (n : ℚ) / 255)
    (hn1 : 1 < t) (hn2 : t ≤ 2) (h1 : t - 1 < 1/6) :
    jsRound (hue2rgb mn mx t * 255) = (n : ℤ) := by
  rw [hue2rgb_wrap_pos hn1 hn2]
  exact comp_seg1 n h (by linarith) h1

theorem seg1_arg_mid {D num : ℚ} (h : D ≠ 0) (k : ℚ) :
    D * 6 * ((num / D + k) / 6) = num + D * k := by
  have e1 : D * 6 * ((num / D + k) / 6) = num / D * D + D * k := by ring
  rw [e1, div_mul_cancel₀ _ h]

theorem seg1_arg_wrap {D num : ℚ} (h : D ≠ 0) (k : ℚ) :
    D * 6 * ((num / D + k) / 6 + 1/3 - 1) = num + D * (k - 4) := by
  have e1 : D * 6 * ((num / D + k) / 6 + 1/3 - 1) = num / D * D + D * (k - 4) := by ring
  rw [e1, div_mul_cancel₀ _ h]

theorem seg1_arg_minus {D num : ℚ} (h : D ≠ 0) (k : ℚ) :
    D * 6 * ((num / D + k) / 6 - 1/3) = num + D * (k - 2) := by
  have e1 : D * 6 * ((num / D + k) / 6 - 1/3) = num / D * D + D * (k - 2) := by ring
  rw [e1, div_mul_cancel₀ _ h]

theorem seg3_arg_plus {D num : ℚ} (h : D ≠ 0) (k : ℚ) :
    D * (2/3 - ((num / D + k) / 6 + 1/3)) * 6 = D * (2 - k) - num := by
  have e1 : D * (2/3 - ((num / D + k) / 6 + 1/3)) * 6 = D * (2 - k) - num / D * D := by ring
  rw [e1, div_mul_cancel₀ _ h]

theorem seg3_arg_mid {D num : ℚ} (h : D ≠ 0) (k : ℚ) :
    D * (2/3 - (num / D + k) / 6) * 6 = D * (4 - k) - num := by
  have e1 : D * (2/3 - (num / D + k) / 6) * 6 = D * (4 - k) - num / D * D := by ring
  rw [e1, div_mul_cancel₀ _ h]

theorem seg3_arg_minus {D num : ℚ} (h : D ≠ 0) (k : ℚ) :
    D * (2/3 - ((num / D + k) / 6 - 1/3)) * 6 = D * (6 - k) - num := by
  have e1 : D * (2/3 - ((num / D + k) / 6 - 1/3)) * 6 = D * (6 - k) - num / D * D := by ring
  rw [e1, div_mul_cancel₀ _ h]

set_option maxHeartbeats 1600000 in
/-- The HSL round trip is exact on 8-bit channels: converting with
exact rational arithmetic and rounding at the end reproduces the input
channels exactly. -/
theorem roundtrip_exact (r g b : ℕ) (hr : r ≤ 255) (hg : g ≤ 255) (hb : b ≤ 255) :
    hslToRgb (rgbToHsl r g b).1 (rgbToHsl r g b).2.1 (rgbToHsl r g b).2.2 =
      ((r : ℤ), (g : ℤ), (b : ℤ)) := by
  have hr0 : (0 : ℚ) ≤ (r : ℚ) / 255 := by positivity
  have hg0 : (0 : ℚ) ≤ (g : ℚ) / 255 := by positivity
  have hb0 : (0 : ℚ) ≤ (b : ℚ) / 255 := by positivity
  have hr1 : (r : ℚ) / 255 ≤ 1 := by
    rw [div_le_one (by norm_num : (0:ℚ) < 255)]
    exact_mod_cast hr
  have hg1 : (g : ℚ) / 255 ≤ 1 := by
    rw [div_le_one (by norm_num : (0:ℚ) < 255)]
    exact_mod_cast hg
  have hb1 : (b : ℚ) / 255 ≤ 1 := by
    rw [div_le_one (by norm_num : (0:ℚ) < 255)]
    exact_mod_cast hb
  by_cases heq : max ((r:ℚ)/255) (max ((g:ℚ)/255) ((b:ℚ)/255)) =
      min ((r:ℚ)/255) (min ((g:ℚ)/255) ((b:ℚ)/255))
  · have h1r : (r:ℚ)/255 ≤ max ((r:ℚ)/255) (max ((g:ℚ)/255) ((b:ℚ)/255)) := le_max_left _ _
    have h2r : min ((r:ℚ)/255) (min ((g:ℚ)/255) ((b:ℚ)/255)) ≤ (r:ℚ)/255 := min_le_left _ _
    have h1g : (g:ℚ)/255 ≤ max ((r:ℚ)/255) (max ((g:ℚ)/255) ((b:ℚ)/255)) :=
      le_trans (le_max_left _ _) (le_max_right _ _)
    have h2g : min ((r:ℚ)/255) (min ((g:ℚ)/255) ((b:ℚ)/255)) ≤ (g:ℚ)/255 :=
      le_trans (min_le_right _ _) (min_le_left _ _)
    have h1b : (b:ℚ)/255 ≤ max ((r:ℚ)/255) (max ((g:ℚ)/255) ((b:ℚ)/255)) :=
      le_trans (le_max_right _ _) (le_max_right _ _)
    have h2b : min ((r:ℚ)/255) (min ((g:ℚ)/255) ((b:ℚ)/255)) ≤ (b:ℚ)/255 :=
      le_trans (min_le_right _ _) (min_le_right _ _)
    have hre : (r:ℚ)/255 = max ((r:ℚ)/255) (max ((g:ℚ)/255) ((b:ℚ)/255)) :=
      le_antisymm h1r (by rw [heq]; exact h2r)
    have hge : (g:ℚ)/255 = max ((r:ℚ)/255) (max ((g:ℚ)/255) ((b:ℚ)/255)) :=
      le_antisymm h1g (by rw [heq]; exact h2g)
    have hbe : (b:ℚ)/255 = max ((r:ℚ)/255) (max ((g:ℚ)/255) ((b:ℚ)/255)) :=
      le_antisymm h1b (by rw [heq]; exact h2b)
    have htuple : rgbToHsl r g b = (0, 0,
        (max ((r:ℚ)/255) (max ((g:ℚ)/255) ((b:ℚ)/255)) +
          min ((r:ℚ)/255) (min ((g:ℚ)/255) ((b:ℚ)/255))) / 2) := by
      simp only [rgbToHsl]
      rw [if_pos heq]
    rw [htuple]
    dsimp only
    simp only [hslToRgb]
    rw [if_true]
    simp only [Prod.mk.injEq]
    refine ⟨?_, ?_, ?_⟩
    · have hval : (max ((r:ℚ)/255) (max ((g:ℚ)/255) ((b:ℚ)/255)) +
          min ((r:ℚ)/255) (min ((g:ℚ)/255) ((b:ℚ)/255))) / 2 * 255 = (r:ℚ) := by
        rw [← heq, ← hre]
        field_simp
        ring
      rw [hval, jsRound_natCast]
    · have hval : (max ((r:ℚ)/255) (max ((g:ℚ)/255) ((b:ℚ)/255)) +
          min ((r:ℚ)/255) (min ((g:ℚ)/255) ((b:ℚ)/255))) / 2 * 255 = (g:ℚ) := by
        rw [← heq, ← hge]
        field_simp
        ring
      rw [hval, jsRound_natCast]
    · have hval : (max ((r:ℚ)/255) (max ((g:ℚ)/255) ((b:ℚ)/255)) +
          min ((r:ℚ)/255) (min ((g:ℚ)/255) ((b:ℚ)/255))) / 2 * 255 = (b:ℚ) := by
        rw [← heq, ← hbe]
        field_simp
        ring
      rw [hval, jsRound_natCast]
  · by_cases hAr : (g:ℚ)/255 ≤ (r:ℚ)/255 ∧ (b:ℚ)/255 ≤ (r:ℚ)/255
    · obtain ⟨hgr, hbr⟩ := hAr
      by_cases hgb : (b:ℚ)/255 ≤ (g:ℚ)/255
      · -- case A: b ≤ g ≤ r, max = r, min = b
        have hmx : max ((r:ℚ)/255) (max ((g:ℚ)/255) ((b:ℚ)/255)) = (r:ℚ)/255 := by
          rw [max_eq_left hgb, max_eq_left hgr]
        have hmn : min ((r:ℚ)/255) (min ((g:ℚ)/255) ((b:ℚ)/255)) = (b:ℚ)/255 := by
          rw [min_eq_right hgb, min_eq_right hbr]
        rw [hmx, hmn] at heq
        have hd : (b:ℚ)/255 < (r:ℚ)/255 := lt_of_le_of_ne hbr (fun h => heq h.symm)
        have hdne : (r:ℚ)/255 - (b:ℚ)/255 ≠ 0 := sub_ne_zero.mpr (ne_of_gt hd)
        have htuple : rgbToHsl r g b =
            ((((g:ℚ)/255 - (b:ℚ)/255) / ((r:ℚ)/255 - (b:ℚ)/255) + 0) / 6 * 360,
             if ((r:ℚ)/255 + (b:ℚ)/255) / 2 > 1/2
               then ((r:ℚ)/255 - (b:ℚ)/255) / (2 - (r:ℚ)/255 - (b:ℚ)/255)
               else ((r:ℚ)/255 - (b:ℚ)/255) / ((r:ℚ)/255 + (b:ℚ)/255),
             ((r:ℚ)/255 + (b:ℚ)/255) / 2) := by
          simp only [rgbToHsl]
          rw [hmx, hmn, if_neg heq, if_pos rfl, if_neg (not_lt.mpr hgb)]
        rw [htuple]
        dsimp only
        rw [hslToRgb_eval ((r:ℚ)/255) ((b:ℚ)/255)
          (((g:ℚ)/255 - (b:ℚ)/255) / ((r:ℚ)/255 - (b:ℚ)/255) + 0) hb0 hd hr1]
        have hX0 : 0 ≤ ((g:ℚ)/255 - (b:ℚ)/255) / ((r:ℚ)/255 - (b:ℚ)/255) :=
          div_nonneg (by linarith) (by linarith)
        have hX1 : ((g:ℚ)/255 - (b:ℚ)/255) / ((r:ℚ)/255 - (b:ℚ)/255) ≤ 1 := by
          rw [div_le_one (by linarith)]
          linarith
        simp only [Prod.mk.injEq]
        refine ⟨?_, ?_, ?_⟩
        · by_cases hXe : ((g:ℚ)/255 - (b:ℚ)/255) / ((r:ℚ)/255 - (b:ℚ)/255) < 1
          · exact comp_q r rfl (by linarith) (by linarith)
          · have hX1e : ((g:ℚ)/255 - (b:ℚ)/255) / ((r:ℚ)/255 - (b:ℚ)/255) = 1 :=
              le_antisymm hX1 (not_lt.mp hXe)
            exact comp_seg3 r (by rw [hX1e]; ring) (by rw [hX1e]; norm_num)
              (by rw [hX1e]; norm_num)
        · by_cases hXe : ((g:ℚ)/255 - (b:ℚ)/255) / ((r:ℚ)/255 - (b:ℚ)/255) < 1
          · exact comp_seg1 g (by rw [seg1_arg_mid hdne 0]; ring) (by linarith) (by linarith)
          · have hX1e : ((g:ℚ)/255 - (b:ℚ)/255) / ((r:ℚ)/255 - (b:ℚ)/255) = 1 :=
              le_antisymm hX1 (not_lt.mp hXe)
            have hgre : (r:ℚ)/255 = (g:ℚ)/255 := by
              have h2 := (div_eq_one_iff_eq hdne).mp hX1e
              linarith
            exact comp_q g hgre (by rw [hX1e]; norm_num) (by rw [hX1e]; norm_num)
        · exact comp_wrapneg_p b rfl (by linarith) (by linarith) (by linarith) (by linarith)
      · -- case B: g < b ≤ r, max = r, min = g
        have hgb' : (g:ℚ)/255 < (b:ℚ)/255 := not_le.mp hgb
        have hmx : max ((r:ℚ)/255) (max ((g:ℚ)/255) ((b:ℚ)/255)) = (r:ℚ)/255 := by
          rw [max_eq_right (le_of_lt hgb'), max_eq_left hbr]
        have hmn : min ((r:ℚ)/255) (min ((g:ℚ)/255) ((b:ℚ)/255)) = (g:ℚ)/255 := by
          rw [min_eq_left (le_of_lt hgb'), min_eq_right hgr]
        have hd : (g:ℚ)/255 < (r:ℚ)/255 := lt_of_lt_of_le hgb' hbr
        have hdne : (r:ℚ)/255 - (g:ℚ)/255 ≠ 0 := sub_ne_zero.mpr (ne_of_gt hd)
        rw [hmx, hmn] at heq
        have htuple : rgbToHsl r g b =
            ((((g:ℚ)/255 - (b:ℚ)/255) / ((r:ℚ)/255 - (g:ℚ)/255) + 6) / 6 * 360,
             if ((r:ℚ)/255 + (g:ℚ)/255) / 2 > 1/2
               then ((r:ℚ)/255 - (g:ℚ)/255) / (2 - (r:ℚ)/255 - (g:ℚ)/255)
               else ((r:ℚ)/255 - (g:ℚ)/255) / ((r:ℚ)/255 + (g:ℚ)/255),
             ((r:ℚ)/255 + (g:ℚ)/255) / 2) := by
          simp only [rgbToHsl]
          rw [hmx, hmn, if_neg heq, if_pos rfl, if_pos hgb']
        rw [htuple]
        dsimp only
        rw [hslToRgb_eval ((r:ℚ)/255) ((g:ℚ)/255)
          (((g:ℚ)/255 - (b:ℚ)/255) / ((r:ℚ)/255 - (g:ℚ)/255) + 6) hg0 hd hr1]
        have hXn : ((g:ℚ)/255 - (b:ℚ)/255) / ((r:ℚ)/255 - (g:ℚ)/255) < 0 :=
          div_neg_of_neg_of_pos (by linarith) (by linarith)
        have hXm : -1 ≤ ((g:ℚ)/255 - (b:ℚ)/255) / ((r:ℚ)/255 - (g:ℚ)/255) := by
          rw [le_div_iff₀ (by linarith : (0:ℚ) < (r:ℚ)/255 - (g:ℚ)/255)]
          linarith
        simp only [Prod.mk.injEq]
        refine ⟨?_, ?_, ?_⟩
        · exact comp_wrappos_q r rfl (by linarith) (by linarith) (by linarith) (by linarith)
        · exact comp_p g rfl (by linarith) (by linarith)
        · exact comp_seg3 b (by rw [seg3_arg_minus hdne 6]; ring) (by linarith) (by linarith)
    · by_cases hbg : (b:ℚ)/255 ≤ (g:ℚ)/255
      · -- case C: max = g, r < g
        have hrg : (r:ℚ)/255 < (g:ℚ)/255 :=
          not_le.mp (fun hgr => hAr ⟨hgr, le_trans hbg hgr⟩)
        have hmx : max ((r:ℚ)/255) (max ((g:ℚ)/255) ((b:ℚ)/255)) = (g:ℚ)/255 := by
          rw [max_eq_left hbg, max_eq_right (le_of_lt hrg)]
        by_cases hrb : (r:ℚ)/255 ≤ (b:ℚ)/255
        · -- case C1: r ≤ b ≤ g, min = r
          have hmn : min ((r:ℚ)/255) (min ((g:ℚ)/255) ((b:ℚ)/255)) = (r:ℚ)/255 := by
            rw [min_eq_right hbg, min_eq_left hrb]
          rw [hmx, hmn] at heq
          have hdne : (g:ℚ)/255 - (r:ℚ)/255 ≠ 0 := sub_ne_zero.mpr (ne_of_gt hrg)
          have htuple : rgbToHsl r g b =
              ((((b:ℚ)/255 - (r:ℚ)/255) / ((g:ℚ)/255 - (r:ℚ)/255) + 2) / 6 * 360,
               if ((g:ℚ)/255 + (r:ℚ)/255) / 2 > 1/2
                 then ((g:ℚ)/255 - (r:ℚ)/255) / (2 - (g:ℚ)/255 - (r:ℚ)/255)
                 else ((g:ℚ)/255 - (r:ℚ)/255) / ((g:ℚ)/255 + (r:ℚ)/255),
               ((g:ℚ)/255 + (r:ℚ)/255) / 2) := by
            simp only [rgbToHsl]
            rw [hmx, hmn, if_neg heq, if_neg (ne_of_gt hrg), if_pos rfl]
          rw [htuple]
          dsimp only
          rw [hslToRgb_eval ((g:ℚ)/255) ((r:ℚ)/255)
            (((b:ℚ)/255 - (r:ℚ)/255) / ((g:ℚ)/255 - (r:ℚ)/255) + 2) hr0 hrg hg1]
          have hX0 : 0 ≤ ((b:ℚ)/255 - (r:ℚ)/255) / ((g:ℚ)/255 - (r:ℚ)/255) :=
            div_nonneg (by linarith) (by linarith)
          have hX1 : ((b:ℚ)/255 - (r:ℚ)/255) / ((g:ℚ)/255 - (r:ℚ)/255) ≤ 1 := by
            rw [div_le_one (by linarith)]
            linarith
          simp only [Prod.mk.injEq]
          refine ⟨?_, ?_, ?_⟩
          · exact comp_p r rfl (by linarith) (by linarith)
          · by_cases hXe : ((b:ℚ)/255 - (r:ℚ)/255) / ((g:ℚ)/255 - (r:ℚ)/255) < 1
            · exact comp_q g rfl (by linarith) (by linarith)
            · have hX1e : ((b:ℚ)/255 - (r:ℚ)/255) / ((g:ℚ)/255 - (r:ℚ)/255) = 1 :=
                le_antisymm hX1 (not_lt.mp hXe)
              exact comp_seg3 g (by rw [hX1e]; ring) (by rw [hX1e]; norm_num)
                (by rw [hX1e]; norm_num)
          · by_cases hXe : ((b:ℚ)/255 - (r:ℚ)/255) / ((g:ℚ)/255 - (r:ℚ)/255) < 1
            · exact comp_seg1 b (by rw [seg1_arg_minus hdne 2]; ring) (by linarith) (by linarith)
            · have hX1e : ((b:ℚ)/255 - (r:ℚ)/255) / ((g:ℚ)/255 - (r:ℚ)/255) = 1 :=
                le_antisymm hX1 (not_lt.mp hXe)
              have hbge : (g:ℚ)/255 = (b:ℚ)/255 := by
                have h2 := (div_eq_one_iff_eq hdne).mp hX1e
                linarith
              exact comp_q b hbge (by rw [hX1e]; norm_num) (by rw [hX1e]; norm_num)
        · -- case C2: b < r < g, min = b
          have hbr : (b:ℚ)/255 < (r:ℚ)/255 := not_le.mp hrb
          have hmn : min ((r:ℚ)/255) (min ((g:ℚ)/255) ((b:ℚ)/255)) = (b:ℚ)/255 := by
            rw [min_eq_right hbg, min_eq_right (le_of_lt hbr)]
          rw [hmx, hmn] at heq
          have hbgs : (b:ℚ)/255 < (g:ℚ)/255 := lt_trans hbr hrg
          have hdne : (g:ℚ)/255 - (b:ℚ)/255 ≠ 0 := sub_ne_zero.mpr (ne_of_gt hbgs)
          have htuple : rgbToHsl r g b =
              ((((b:ℚ)/255 - (r:ℚ)/255) / ((g:ℚ)/255 - (b:ℚ)/255) + 2) / 6 * 360,
               if ((g:ℚ)/255 + (b:ℚ)/255) / 2 > 1/2
                 then ((g:ℚ)/255 - (b:ℚ)/255) / (2 - (g:ℚ)/255 - (b:ℚ)/255)
                 else ((g:ℚ)/255 - (b:ℚ)/255) / ((g:ℚ)/255 + (b:ℚ)/255),
               ((g:ℚ)/255 + (b:ℚ)/255) / 2) := by
            simp only [rgbToHsl]
            rw [hmx, hmn, if_neg heq, if_neg (ne_of_gt hrg), if_pos rfl]
          rw [htuple]
          dsimp only
          rw [hslToRgb_eval ((g:ℚ)/255) ((b:ℚ)/255)
            (((b:ℚ)/255 - (r:ℚ)/255) / ((g:ℚ)/255 - (b:ℚ)/255) + 2) hb0 hbgs hg1]
          have hXn : ((b:ℚ)/255 - (r:ℚ)/255) / ((g:ℚ)/255 - (b:ℚ)/255) < 0 :=
            div_neg_of_neg_of_pos (by linarith) (by linarith)
          have hXm : -1 ≤ ((b:ℚ)/255 - (r:ℚ)/255) / ((g:ℚ)/255 - (b:ℚ)/255) := by
            rw [le_div_iff₀ (by linarith : (0:ℚ) < (g:ℚ)/255 - (b:ℚ)/255)]
            linarith
          simp only [Prod.mk.injEq]
          refine ⟨?_, ?_, ?_⟩
          · exact comp_seg3 r (by rw [seg3_arg_plus hdne 2]; ring) (by linarith) (by linarith)
          · exact comp_q g rfl (by linarith) (by linarith)
          · exact comp_wrapneg_p b rfl (by linarith) (by linarith) (by linarith) (by linarith)
      · -- case D: g < b and r < b, max = b
        have hgb' : (g:ℚ)/255 < (b:ℚ)/255 := not_le.mp hbg
        have hrb : (r:ℚ)/255 < (b:ℚ)/255 :=
          not_le.mp (fun h => hAr ⟨le_trans (le_of_lt hgb') h, h⟩)
        have hmx : max ((r:ℚ)/255) (max ((g:ℚ)/255) ((b:ℚ)/255)) = (b:ℚ)/255 := by
          rw [max_eq_right (le_of_lt hgb'), max_eq_right (le_of_lt hrb)]
        by_cases hgr : (g:ℚ)/255 ≤ (r:ℚ)/255
        · -- case D1: g ≤ r < b, min = g
          have hmn : min ((r:ℚ)/255) (min ((g:ℚ)/255) ((b:ℚ)/255)) = (g:ℚ)/255 := by
            rw [min_eq_left (le_of_lt hgb'), min_eq_right hgr]
          rw [hmx, hmn] at heq
          have hdne : (b:ℚ)/255 - (g:ℚ)/255 ≠ 0 := sub_ne_zero.mpr (ne_of_gt hgb')
          have htuple : rgbToHsl r g b =
              ((((r:ℚ)/255 - (g:ℚ)/255) / ((b:ℚ)/255 - (g:ℚ)/255) + 4) / 6 * 360,
               if ((b:ℚ)/255 + (g:ℚ)/255) / 2 > 1/2
                 then ((b:ℚ)/255 - (g:ℚ)/255) / (2 - (b:ℚ)/255 - (g:ℚ)/255)
                 else ((b:ℚ)/255 - (g:ℚ)/255) / ((b:ℚ)/255 + (g:ℚ)/255),
               ((b:ℚ)/255 + (g:ℚ)/255) / 2) := by
            simp only [rgbToHsl]
            rw [hmx, hmn, if_neg heq, if_neg (ne_of_gt hrb), if_neg (ne_of_gt hgb')]
          rw [htuple]
          dsimp only
          rw [hslToRgb_eval ((b:ℚ)/255) ((g:ℚ)/255)
            (((r:ℚ)/255 - (g:ℚ)/255) / ((b:ℚ)/255 - (g:ℚ)/255) + 4) hg0 hgb' hb1]
          have hX0 : 0 ≤ ((r:ℚ)/255 - (g:ℚ)/255) / ((b:ℚ)/255 - (g:ℚ)/255) :=
            div_nonneg (by linarith) (by linarith)
          have hX1 : ((r:ℚ)/255 - (g:ℚ)/255) / ((b:ℚ)/255 - (g:ℚ)/255) < 1 := by
            rw [div_lt_one (by linarith)]
            linarith
          simp only [Prod.mk.injEq]
          refine ⟨?_, ?_, ?_⟩
          · by_cases hXe : 0 < ((r:ℚ)/255 - (g:ℚ)/255) / ((b:ℚ)/255 - (g:ℚ)/255)
            · exact comp_wrappos_seg1 r (by rw [seg1_arg_wrap hdne 4]; ring) (by linarith) (by linarith)
                (by linarith)
            · have hX0e : ((r:ℚ)/255 - (g:ℚ)/255) / ((b:ℚ)/255 - (g:ℚ)/255) = 0 :=
                le_antisymm (not_lt.mp hXe) hX0
              have hgre : (g:ℚ)/255 = (r:ℚ)/255 := by
                have h2 : (r:ℚ)/255 - (g:ℚ)/255 = 0 := by
                  rcases div_eq_zero_iff.mp hX0e with h | h
                  · exact h
                  · exact absurd h hdne
                linarith
              exact comp_p r hgre (by rw [hX0e]; norm_num) (by rw [hX0e]; norm_num)
          · exact comp_p g rfl (by linarith) (by linarith)
          · exact comp_q b rfl (by linarith) (by linarith)
        · -- case D2: r < g < b, min = r
          have hrg : (r:ℚ)/255 < (g:ℚ)/255 := not_le.mp hgr
          have hmn : min ((r:ℚ)/255) (min ((g:ℚ)/255) ((b:ℚ)/255)) = (r:ℚ)/255 := by
            rw [min_eq_left (le_of_lt hgb'), min_eq_left (le_of_lt hrg)]
          rw [hmx, hmn] at heq
          have hdne : (b:ℚ)/255 - (r:ℚ)/255 ≠ 0 := sub_ne_zero.mpr (ne_of_gt hrb)
          have htuple : rgbToHsl r g b =
              ((((r:ℚ)/255 - (g:ℚ)/255) / ((b:ℚ)/255 - (r:ℚ)/255) + 4) / 6 * 360,
               if ((b:ℚ)/255 + (r:ℚ)/255) / 2 > 1/2
                 then ((b:ℚ)/255 - (r:ℚ)/255) / (2 - (b:ℚ)/255 - (r:ℚ)/255)
                 else ((b:ℚ)/255 - (r:ℚ)/255) / ((b:ℚ)/255 + (r:ℚ)/255),
               ((b:ℚ)/255 + (r:ℚ)/255) / 2) := by
            simp only [rgbToHsl]
            rw [hmx, hmn, if_neg heq, if_neg (ne_of_gt hrb), if_neg (ne_of_gt hgb')]
          rw [htuple]
          dsimp only
          rw [hslToRgb_eval ((b:ℚ)/255) ((r:ℚ)/255)
            (((r:ℚ)/255 - (g:ℚ)/255) / ((b:ℚ)/255 - (r:ℚ)/255) + 4) hr0 hrb hb1]
          have hXn : ((r:ℚ)/255 - (g:ℚ)/255) / ((b:ℚ)/255 - (r:ℚ)/255) < 0 :=
            div_neg_of_neg_of_pos (by linarith) (by linarith)
          have hXm : -1 ≤ ((r:ℚ)/255 - (g:ℚ)/255) / ((b:ℚ)/255 - (r:ℚ)/255) := by
            rw [le_div_iff₀ (by linarith : (0:ℚ) < (b:ℚ)/255 - (r:ℚ)/255)]
            linarith
          simp only [Prod.mk.injEq]
          refine ⟨?_, ?_, ?_⟩
          · exact comp_p r rfl (by linarith) (by linarith)
          · exact comp_seg3 g (by rw [seg3_arg_mid hdne 4]; ring) (by linarith) (by linarith)
          · exact comp_q b rfl (by linarith) (by linarith)

/-- C8 (confirmed): for every RGB triple with integer channels in
`[0,255]`, `rgbToHsl` followed by `hslToRgb` reproduces the original
within one per channel (the round trip is in fact exact in the code's
arithmetic). -/
theorem rgb_hsl_roundtrip_within_one (r g b : ℕ) (hr : r ≤ 255) (hg : g ≤ 255)
    (hb : b ≤ 255) :
    ((hslToRgb (rgbToHsl r g b).1 (rgbToHsl r g b).2.1 (rgbToHsl r g b).2.2).1
        - (r : ℤ)).natAbs ≤ 1
    ∧ ((hslToRgb (rgbToHsl r g b).1 (rgbToHsl r g b).2.1 (rgbToHsl r g b).2.2).2.1
        - (g : ℤ)).natAbs ≤ 1
    ∧ ((hslToRgb (rgbToHsl r g b).1 (rgbToHsl r g b).2.1 (rgbToHsl r g b).2.2).2.2
        - (b : ℤ)).natAbs ≤ 1 := by
  rw [roundtrip_exact r g b hr hg hb]
  simp

/-- C8 (witness). -/
theorem rgb_hsl_roundtrip_within_one_witness :
    (10 ≤ 255 ∧ 20 ≤ 255 ∧ 30 ≤ 255)
    ∧ (((hslToRgb (rgbToHsl 10 20 30).1 (rgbToHsl 10 20 30).2.1 (rgbToHsl 10 20 30).2.2).1
        - (10 : ℤ)).natAbs ≤ 1
      ∧ ((hslToRgb (rgbToHsl 10 20 30).1 (rgbToHsl 10 20 30).2.1 (rgbToHsl 10 20 30).2.2).2.1
        - (20 : ℤ)).natAbs ≤ 1
      ∧ ((hslToRgb (rgbToHsl 10 20 30).1 (rgbToHsl 10 20 30).2.1 (rgbToHsl 10 20 30).2.2).2.2
        - (30 : ℤ)).natAbs ≤ 1) := by
  exact ⟨by omega, rgb_hsl_roundtrip_within_one 10 20 30 (by omega) (by omega) (by omega)⟩

